import Mathlib

/-!
# rofiles-fuse: a shallow embedding of `main.c`

The FUSE handlers of `main.c` are thin wrappers around directory-relative
system calls.  The embedding has three layers.

* C-level helpers: `strspn`, `ENSURE_RELPATH`, the narrowing conversions of
  `int` and `size_t`, and the numeric constants of the Linux headers.
* `Kernel σ`: the system calls used by the handlers, as functions over an
  arbitrary kernel state `σ`.  Every handler is written against this interface,
  statement by statement after the C text.
* `World` and `posix`: one executable instance of `Kernel`, an inode table with
  open file descriptions, descriptors and a fault schedule, used to run the
  handlers on concrete filesystems.
-/

namespace Rofiles

/-! ## Constants of the Linux headers -/

/-- Value of `EROFS` in `<errno.h>`. -/
def EROFS : Nat := 30
/-- Value of `ENOTSUP` in `<errno.h>` (the same number as `EOPNOTSUPP`). -/
def ENOTSUP : Nat := 95
/-- Value of `ENOENT`. -/
def ENOENT : Nat := 2
/-- Value of `EBADF`. -/
def EBADF : Nat := 9
/-- Value of `ENOMEM`. -/
def ENOMEM : Nat := 12
/-- Value of `EEXIST`. -/
def EEXIST : Nat := 17
/-- Value of `ENOTDIR`. -/
def ENOTDIR : Nat := 20
/-- Value of `EISDIR`. -/
def EISDIR : Nat := 21
/-- Value of `EINVAL`. -/
def EINVAL : Nat := 22
/-- Value of `EIO`. -/
def EIO : Nat := 5
/-- Value of `EACCES`. -/
def EACCES : Nat := 13
/-- Value of `EMFILE`. -/
def EMFILE : Nat := 24
/-- Value of `ELOOP`. -/
def ELOOP : Nat := 40
/-- Value of `EBUSY`. -/
def EBUSY : Nat := 16
/-- Value of `ENOTEMPTY`. -/
def ENOTEMPTY : Nat := 39

/-- Access mode `O_RDONLY` of `<fcntl.h>`. -/
def O_RDONLY : Int := 0
/-- Access mode `O_WRONLY`. -/
def O_WRONLY : Int := 1
/-- Access mode `O_RDWR`. -/
def O_RDWR : Int := 2
/-- Mask `O_ACCMODE` selecting the access mode of the open flags. -/
def O_ACCMODE : Int := 3
/-- Flag `O_NOCTTY` (octal 0400). -/
def O_NOCTTY : Int := 256
/-- Flag `O_NONBLOCK` (octal 04000). -/
def O_NONBLOCK : Int := 2048
/-- Flag `O_DIRECTORY` (octal 0200000). -/
def O_DIRECTORY : Int := 65536
/-- Flag `O_NOFOLLOW` (octal 0400000). -/
def O_NOFOLLOW : Int := 131072
/-- Flag `O_CLOEXEC` (octal 02000000). -/
def O_CLOEXEC : Int := 524288
/-- The flag word `O_RDONLY | O_NONBLOCK | O_DIRECTORY | O_CLOEXEC | O_NOCTTY`
used by `callback_readdir`; the five flags have disjoint bits. -/
def O_DIRFLAGS : Int := O_RDONLY + O_NONBLOCK + O_DIRECTORY + O_CLOEXEC + O_NOCTTY

/-- Probe bit `F_OK` of `<unistd.h>`. -/
def F_OK : Int := 0
/-- Probe bit `X_OK`. -/
def X_OK : Int := 1
/-- Probe bit `W_OK`. -/
def W_OK : Int := 2
/-- Probe bit `R_OK`. -/
def R_OK : Int := 4

/-- Flag `AT_SYMLINK_NOFOLLOW` (0x100). -/
def AT_SYMLINK_NOFOLLOW : Int := 256

/-- Whence value `SEEK_SET`. -/
def SEEK_SET : Int := 0

/-- File type mask `S_IFMT` (octal 0170000). -/
def S_IFMT : Nat := 61440
/-- File type `S_IFIFO` (octal 0010000). -/
def S_IFIFO : Nat := 4096
/-- File type `S_IFCHR` (octal 0020000). -/
def S_IFCHR : Nat := 8192
/-- File type `S_IFDIR` (octal 0040000). -/
def S_IFDIR : Nat := 16384
/-- File type `S_IFBLK` (octal 0060000). -/
def S_IFBLK : Nat := 24576
/-- File type `S_IFREG` (octal 0100000). -/
def S_IFREG : Nat := 32768
/-- File type `S_IFLNK` (octal 0120000). -/
def S_IFLNK : Nat := 40960
/-- File type `S_IFSOCK` (octal 0140000). -/
def S_IFSOCK : Nat := 49152

/-- Directory entry type `DT_UNKNOWN` of `<dirent.h>`. -/
def DT_UNKNOWN : Nat := 0
/-- Directory entry type `DT_FIFO`. -/
def DT_FIFO : Nat := 1
/-- Directory entry type `DT_CHR`. -/
def DT_CHR : Nat := 2
/-- Directory entry type `DT_DIR`. -/
def DT_DIR : Nat := 4
/-- Directory entry type `DT_BLK`. -/
def DT_BLK : Nat := 6
/-- Directory entry type `DT_REG`. -/
def DT_REG : Nat := 8
/-- Directory entry type `DT_LNK`. -/
def DT_LNK : Nat := 10
/-- Directory entry type `DT_SOCK`. -/
def DT_SOCK : Nat := 12

/-- Largest value of `int` (32 bits). -/
def INT_MAX : Nat := 2147483647
/-- Number of values of `size_t` (64 bits, LP64). -/
def SIZE_RANGE : Nat := 18446744073709551616
/-- Number of non-negative values of `ssize_t` and of `off_t` (2^63). -/
def SSIZE_RANGE : Nat := 9223372036854775808
/-- The Linux constant `MAX_RW_COUNT`, `INT_MAX & PAGE_MASK` with pages of 4096
bytes (0x7ffff000): the most bytes one read transfers. -/
def MAX_RW_COUNT : Nat := 2147479552

/-! ## C arithmetic -/

/-- Conversion of an integer value to `int`: reduction modulo 2^32 into
`[-2^31, 2^31)`, which is what `int r = pread (...)` does to an `ssize_t`. -/
def toInt32 (n : Int) : Int := (n + 2147483648) % 4294967296 - 2147483648

/-- The bit pattern of an `int`, as a natural number below 2^32. -/
def toU32 (x : Int) : Nat := (x % 4294967296).toNat

/-- The C operator `&` on two `int` values (two's complement, 32 bits). -/
def int_and (a b : Int) : Int := toInt32 (Nat.land (toU32 a) (toU32 b))

/-- The expression `size - 1` on `size_t`: subtraction modulo 2^64. -/
def size_sub_one (size : Nat) : Nat := (size + (SIZE_RANGE - 1)) % SIZE_RANGE

/-- The macro `S_ISDIR (mode)`: `(mode & S_IFMT) == S_IFDIR`. -/
def S_ISDIR (mode : Nat) : Bool := Nat.land mode S_IFMT == S_IFDIR

/-! ## Path resolver -/

/-- The libc function `strspn (s, accept)`: the length of the longest initial
segment of `s` made only of characters of `accept`.  A C string is the list of
its characters before the terminating NUL. -/
def strspn : List Char → List Char → Nat
  | [], _ => 0
  | c :: cs, accept => if c ∈ accept then strspn cs accept + 1 else 0

/-- `ENSURE_RELPATH (path)` is `path + strspn (path, "/")`: the suffix of `path`
that starts `strspn (path, "/")` characters in. -/
def ENSURE_RELPATH (path : List Char) : List Char :=
  path.drop (strspn path ['/'])

/-! ## Data passed across the system call boundary -/

/-- The fields of `struct stat`. -/
structure Stat where
  st_dev : Nat
  st_ino : Nat
  st_mode : Nat
  st_nlink : Nat
  st_uid : Nat
  st_gid : Nat
  st_rdev : Nat
  st_size : Nat
  st_blksize : Nat
  st_blocks : Nat
  st_atime : Nat
  st_mtime : Nat
  st_ctime : Nat
  deriving DecidableEq, Repr

/-- The value of a `struct stat` after `memset (&st, 0, sizeof (st))`. -/
def Stat.zero : Stat := ⟨0, 0, 0, 0, 0, 0, 0, 0, 0, 0, 0, 0, 0⟩

/-- The fields of `struct dirent`. -/
structure Dirent where
  d_ino : Nat
  d_off : Nat
  d_reclen : Nat
  d_type : Nat
  d_name : List Char
  deriving DecidableEq, Repr

deriving instance DecidableEq for Except

/-- A store into a caller's `char` buffer: the index and the character. -/
abbrev Store := Int × Char

/-- The stores a system call makes when it places `bytes` at the start of the
caller's buffer: `bytes[i]` at index `i`. -/
def stores (bytes : List Char) : List Store :=
  bytes.enum.map (fun p => ((p.1 : Int), p.2))

/-- The system calls used by the handlers, over a kernel state `σ`.  A call
returns its outcome and the next state; `Except.error e` stands for the C
return value `-1` (or `NULL`) with `errno` set to `e`.  Descriptors returned on
success are natural numbers, so never `-1`.  The calls that fill a buffer
return what they stored at its start; the C return value is the length.
`errno` is the value the variable `errno` has in a state. -/
structure Kernel (σ : Type) where
  errno : σ → Nat
  fstat : σ → Int → Except Nat Stat × σ
  fstatat : σ → Int → List Char → Int → Except Nat Stat × σ
  readlinkat : σ → Int → List Char → Nat → Except Nat (List Char) × σ
  fcntl_dupfd_cloexec : σ → Int → Int → Except Nat Nat × σ
  lseek : σ → Int → Int → Int → Except Nat Int × σ
  openat : σ → Int → List Char → Int → Except Nat Nat × σ
  fdopendir : σ → Int → Except Nat Nat × σ
  readdir : σ → Nat → Option Dirent × σ
  closedir : σ → Nat → Except Nat Unit × σ
  close : σ → Int → Except Nat Unit × σ
  pread : σ → Int → Nat → Int → Except Nat (List Char) × σ
  symlinkat : σ → List Char → Int → List Char → Except Nat Unit × σ
  renameat : σ → Int → List Char → Int → List Char → Except Nat Unit × σ
  fchmodat : σ → Int → List Char → Nat → Int → Except Nat Unit × σ
  fchownat : σ → Int → List Char → Nat → Nat → Int → Except Nat Unit × σ
  faccessat : σ → Int → List Char → Int → Int → Except Nat Unit × σ

/-! ## The handlers of `main.c`

The global `basefd` is the parameter `basefd` of every handler that reads it.
A handler returns its `int` result, what it stored through its out-parameters,
and the kernel state it leaves. -/

section Handlers

variable {σ : Type}

/-- The cleanup `glnx_cleanup_close_fdp`, run when a `glnx_fd_close` variable
holding `fd` goes out of scope. -/
def glnx_cleanup_close_fdp (k : Kernel σ) (fd : Int) (s : σ) : σ :=
  if fd ≠ -1 then (k.close s fd).2 else s

/-- The handler `callback_getattr`; `st_data` is the caller's buffer, returned
as the handler leaves it. -/
def callback_getattr (k : Kernel σ) (basefd : Int) (path : List Char) (st_data : Stat)
    (s : σ) : Int × Stat × σ :=
  let path := ENSURE_RELPATH path
  if path.isEmpty then
    match k.fstat s basefd with
    | (.error e, s1) => (-(e : Int), st_data, s1)
    | (.ok st, s1) => (0, st, s1)
  else
    match k.fstatat s basefd path 0 with
    | (.error e, s1) => (-(e : Int), st_data, s1)
    | (.ok st, s1) => (0, st, s1)

/-- The handler `callback_readlink`.  The second component lists the stores
made into `buf`, those of `readlinkat` first. -/
def callback_readlink (k : Kernel σ) (basefd : Int) (path : List Char) (size : Nat)
    (s : σ) : Int × List Store × σ :=
  let path := ENSURE_RELPATH path
  match k.readlinkat s basefd path (size_sub_one size) with
  | (.error e, s1) => (-(e : Int), [], s1)
  | (.ok bytes, s1) =>
    let r := toInt32 bytes.length
    if r = -1 then (-(k.errno s1 : Int), stores bytes, s1)
    else (0, stores bytes ++ [(r, Char.ofNat 0)], s1)

/-- The loop `while ((de = readdir (dp)) != NULL) { ... }` of
`callback_readdir`, with at most `fuel` calls of `readdir`; `none` when the
fuel runs out.  `filler` takes the accumulation buffer, the name, the stat
and the offset, and returns its `int` result with the buffer. -/
def readdir_loop {β : Type} (k : Kernel σ) (filler : β → List Char → Stat → Int → Int × β)
    (dp : Nat) : Nat → σ → β → Option (σ × β)
  | 0, _, _ => none
  | fuel + 1, s, buf =>
    match k.readdir s dp with
    | (none, s1) => some (s1, buf)
    | (some de, s1) =>
      let st : Stat := { Stat.zero with st_ino := de.d_ino, st_mode := de.d_type <<< 12 }
      match filler buf de.d_name st 0 with
      | (r, buf1) => if r ≠ 0 then some (s1, buf1) else readdir_loop k filler dp fuel s1 buf1

/-- The handler `callback_readdir`.  The arguments `offset` and `fi` are not
read by the C code and are left out. -/
def callback_readdir {β : Type} (k : Kernel σ) (basefd : Int)
    (filler : β → List Char → Stat → Int → Int × β) (fuel : Nat) (path : List Char) (buf : β)
    (s : σ) : Option (Int × β × σ) :=
  let path := ENSURE_RELPATH path
  let opened : Except (Int × σ) (Int × σ) :=
    if path.isEmpty then
      match k.fcntl_dupfd_cloexec s basefd 3 with
      | (r, s1) =>
        let dfd : Int := match r with
          | .ok fd => (fd : Int)
          | .error _ => -1
        .ok (dfd, (k.lseek s1 dfd 0 SEEK_SET).2)
    else
      match k.openat s basefd path O_DIRFLAGS with
      | (.error e, s1) => .error (-(e : Int), s1)
      | (.ok fd, s1) => .ok ((fd : Int), s1)
  match opened with
  | .error (r, s1) => some (r, buf, s1)
  | .ok (dfd, s2) =>
    match k.fdopendir s2 dfd with
    | (.error e, s3) => some (-(e : Int), buf, s3)
    | (.ok dp, s3) =>
      match readdir_loop k filler dp fuel s3 buf with
      | none => none
      | some (s4, buf1) => some (0, buf1, (k.closedir s4 dp).2)

/-- The handler `callback_mknod`. -/
def callback_mknod (_k : Kernel σ) (_path : List Char) (_mode : Nat) (_rdev : Nat) (s : σ) :
    Int × σ :=
  (-(EROFS : Int), s)

/-- The handler `callback_rename`: `renameat` is the body of the `if` on the
result of `symlinkat`. -/
def callback_rename (k : Kernel σ) (basefd : Int) (from_ to_ : List Char) (s : σ) : Int × σ :=
  let from_ := ENSURE_RELPATH from_
  let to_ := ENSURE_RELPATH to_
  match k.symlinkat s from_ basefd to_ with
  | (.error _, s1) =>
    match k.renameat s1 basefd from_ basefd to_ with
    | (.error e, s2) => (-(e : Int), s2)
    | (.ok _, s2) => (0, s2)
  | (.ok _, s1) => (0, s1)

/-- The function `can_write`. -/
def can_write (k : Kernel σ) (basefd : Int) (path : List Char) (s : σ) : Int × σ :=
  let path := ENSURE_RELPATH path
  match k.fstatat s basefd path 0 with
  | (.error e, s1) => (-(e : Int), s1)
  | (.ok stbuf, s1) => if !S_ISDIR stbuf.st_mode then (-(EROFS : Int), s1) else (0, s1)

/-- The handler `callback_chmod`; the first `match` is the macro `VERIFY_WRITE`. -/
def callback_chmod (k : Kernel σ) (basefd : Int) (path : List Char) (mode : Nat) (s : σ) :
    Int × σ :=
  let path := ENSURE_RELPATH path
  match can_write k basefd path s with
  | (r, s1) =>
    if r ≠ 0 then (r, s1)
    else
      match k.fchmodat s1 basefd path mode 0 with
      | (.error e, s2) => (-(e : Int), s2)
      | (.ok _, s2) => (0, s2)

/-- The handler `callback_chown`; the first `match` is the macro `VERIFY_WRITE`. -/
def callback_chown (k : Kernel σ) (basefd : Int) (path : List Char) (uid gid : Nat) (s : σ) :
    Int × σ :=
  let path := ENSURE_RELPATH path
  match can_write k basefd path s with
  | (r, s1) =>
    if r ≠ 0 then (r, s1)
    else
      match k.fchownat s1 basefd path uid gid 0 with
      | (.error e, s2) => (-(e : Int), s2)
      | (.ok _, s2) => (0, s2)

/-- The handler `callback_truncate`. -/
def callback_truncate (_k : Kernel σ) (_path : List Char) (_size : Int) (s : σ) : Int × σ :=
  (-(EROFS : Int), s)

/-- The handler `callback_utime`; `_buf` holds the two times of the `utimbuf`. -/
def callback_utime (_k : Kernel σ) (_path : List Char) (_buf : Int × Int) (s : σ) : Int × σ :=
  (-(EROFS : Int), s)

/-- The handler `callback_open`; `finfo_flags` is `finfo->flags`. -/
def callback_open (_k : Kernel σ) (_path : List Char) (finfo_flags : Int) (s : σ) : Int × σ :=
  let flags := int_and finfo_flags O_ACCMODE
  if int_and flags O_RDONLY = 0 then (-(EROFS : Int), s) else (0, s)

/-- The handler `callback_read`.  The second component is what `pread` stored
at the start of `buf`.  The variable `fd` is `glnx_fd_close`: its cleanup runs
at each `return` after the return value has been computed. -/
def callback_read (k : Kernel σ) (basefd : Int) (path : List Char) (size : Nat) (offset : Int)
    (s : σ) : Int × List Char × σ :=
  let path := ENSURE_RELPATH path
  match k.openat s basefd path O_RDONLY with
  | (.error e, s1) => (-(e : Int), [], glnx_cleanup_close_fdp k (-1) s1)
  | (.ok fd, s1) =>
    match k.pread s1 fd size offset with
    | (.error e, s2) => (-(e : Int), [], glnx_cleanup_close_fdp k fd s2)
    | (.ok bytes, s2) =>
      let r := toInt32 bytes.length
      if r = -1 then (-(k.errno s2 : Int), bytes, glnx_cleanup_close_fdp k fd s2)
      else (r, bytes, glnx_cleanup_close_fdp k fd s2)

/-- The handler `callback_write`. -/
def callback_write (_k : Kernel σ) (_path : List Char) (_buf : List Char) (_size : Nat)
    (_offset : Int) (s : σ) : Int × σ :=
  (-(EROFS : Int), s)

/-- The handler `callback_fsync`. -/
def callback_fsync (_k : Kernel σ) (_path : List Char) (_crap : Int) (s : σ) : Int × σ :=
  (-(EROFS : Int), s)

/-- The handler `callback_access`. -/
def callback_access (k : Kernel σ) (basefd : Int) (path : List Char) (mode : Int) (s : σ) :
    Int × σ :=
  if int_and mode W_OK ≠ 0 then (-(EROFS : Int), s)
  else
    let path := ENSURE_RELPATH path
    match k.faccessat s basefd path mode 0 with
    | (.error e, s1) => (-(e : Int), s1)
    | (.ok _, s1) => (0, s1)

/-- The handler `callback_setxattr`. -/
def callback_setxattr (_k : Kernel σ) (_path _name _value : List Char) (_size : Nat)
    (_flags : Int) (s : σ) : Int × σ :=
  (-(ENOTSUP : Int), s)

/-- The handler `callback_getxattr`. -/
def callback_getxattr (_k : Kernel σ) (_path _name : List Char) (_size : Nat) (s : σ) :
    Int × σ :=
  (-(ENOTSUP : Int), s)

/-- The handler `callback_listxattr`. -/
def callback_listxattr (_k : Kernel σ) (_path : List Char) (_size : Nat) (s : σ) : Int × σ :=
  (-(ENOTSUP : Int), s)

/-- The handler `callback_removexattr`. -/
def callback_removexattr (_k : Kernel σ) (_path _name : List Char) (s : σ) : Int × σ :=
  (-(ENOTSUP : Int), s)

end Handlers

/-! ## A model of the kernel

`World` is an executable model of the part of the Linux kernel the handlers
reach: an inode table, open file descriptions with their offsets, a descriptor
table and a schedule of injected failures.  It follows the Linux behaviour of
the calls: paths are walked component by component with symbolic links
followed, at most `MAXSYMLINKS` of them; `pread` rejects a count or an end
offset that is negative as a signed 64-bit value and transfers at most
`MAX_RW_COUNT` bytes; `readlinkat` takes its bound as an `int` and rejects one
that is not positive.  Its limits: the state holds the exposed tree only, so an
absolute path and a link with an absolute target do not resolve; permissions
are checked by `faccessat` only (against the owner bits); only the stat fields
listed in `statOf` are kept; hard links are absent. -/

/-- File types. -/
inductive FType where
  | fifo | chr | dir | blk | reg | lnk | sock
  deriving DecidableEq, Repr

/-- The `S_IF*` constant of a file type. -/
def FType.S_IF : FType → Nat
  | .fifo => S_IFIFO
  | .chr => S_IFCHR
  | .dir => S_IFDIR
  | .blk => S_IFBLK
  | .reg => S_IFREG
  | .lnk => S_IFLNK
  | .sock => S_IFSOCK

/-- The `DT_*` constant of a file type. -/
def FType.DT : FType → Nat
  | .fifo => DT_FIFO
  | .chr => DT_CHR
  | .dir => DT_DIR
  | .blk => DT_BLK
  | .reg => DT_REG
  | .lnk => DT_LNK
  | .sock => DT_SOCK

/-- An entry stored in a directory: name, inode number and the type byte the
filesystem keeps with the entry (`DT_UNKNOWN` where it keeps none). -/
structure DirSlot where
  name : List Char
  ino : Nat
  d_type : Nat
  deriving DecidableEq, Repr

/-- An inode: `data` is the content of a regular file or the target of a
symbolic link, `slots` the entries of a directory (with `.` and `..`). -/
structure Inode where
  ftype : FType
  perm : Nat
  uid : Nat
  gid : Nat
  data : List Char
  slots : List DirSlot
  deriving DecidableEq, Repr

/-- An open file description: the inode and the file offset (for a directory,
the index of the next entry to read). -/
structure OpenFile where
  ino : Nat
  pos : Nat
  deriving DecidableEq, Repr

/-- The kernel state.  `inodes[i]` is inode number `i`; `fds` maps a descriptor
to an index of `files`; `faults` is consumed one item per system call, `some e`
making the call fail with `errno = e`. -/
structure World where
  inodes : List Inode
  files : List OpenFile
  fds : List (Nat × Nat)
  faults : List (Option Nat)
  errno : Nat
  deriving DecidableEq, Repr

namespace World

/-- The open descriptors. -/
def openFds (w : World) : List Nat := w.fds.map Prod.fst

/-- Takes the next item of the fault schedule. -/
def tick (w : World) : Option Nat × World :=
  match w.faults with
  | [] => (none, w)
  | f :: rest => (f, { w with faults := rest })

/-- A failed call: `errno` is set. -/
def fail {α : Type} (w : World) (e : Nat) : Except Nat α × World :=
  (.error e, { w with errno := e })

/-- The index in `files` of the open file description of a descriptor. -/
def slotOf (fds : List (Nat × Nat)) (fd : Int) : Option Nat :=
  if fd < 0 then none else fds.lookup fd.toNat

/-- The open file description of a descriptor. -/
def fileOf (files : List OpenFile) (fds : List (Nat × Nat)) (fd : Int) : Option OpenFile :=
  match slotOf fds fd with
  | none => none
  | some i => files[i]?

/-- The lowest descriptor not below `lo` that is not open. -/
def freshFd (fds : List (Nat × Nat)) (lo : Nat) : Option Nat :=
  (List.range' lo (fds.length + 1)).find? (fun n => decide (n ∉ fds.map Prod.fst))

/-- The `struct stat` of an inode.  Fields the model does not keep are zero,
`st_nlink` is 1. -/
def statOf (ino : Nat) (n : Inode) : Stat :=
  { Stat.zero with
    st_ino := ino, st_mode := n.ftype.S_IF + n.perm % 4096, st_nlink := 1,
    st_uid := n.uid, st_gid := n.gid,
    st_size := if n.ftype = .dir then 0 else n.data.length }

/-- Splits a path at slashes; `cur` is the component being read, reversed.
Empty components are dropped. -/
def splitAux : List Char → List Char → List (List Char)
  | cur, [] => if cur = [] then [] else [cur.reverse]
  | cur, c :: cs =>
    if c = '/' then
      if cur = [] then splitAux [] cs else cur.reverse :: splitAux [] cs
    else splitAux (c :: cur) cs

/-- The components of a path. -/
def splitPath (p : List Char) : List (List Char) := splitAux [] p

/-- Walks the components from inode `cur`. -/
def walk (inodes : List Inode) : Nat → List (List Char) → Except Nat Nat
  | cur, [] => .ok cur
  | cur, c :: rest =>
    match inodes[cur]? with
    | none => .error ENOENT
    | some n =>
      if n.ftype ≠ .dir then .error ENOTDIR
      else
        match n.slots.find? (fun sl => sl.name = c) with
        | none => .error ENOENT
        | some sl => walk inodes sl.ino rest

/-- The directory inode a directory descriptor refers to. -/
def dirOf (inodes : List Inode) (files : List OpenFile) (fds : List (Nat × Nat))
    (dirfd : Int) : Except Nat Nat :=
  match fileOf files fds dirfd with
  | none => .error EBADF
  | some f =>
    match inodes[f.ino]? with
    | none => .error EBADF
    | some n => if n.ftype = .dir then .ok f.ino else .error ENOTDIR

/-- Path resolution over the components of a state. -/
def lookupPath (inodes : List Inode) (files : List OpenFile) (fds : List (Nat × Nat))
    (dirfd : Int) (path : List Char) : Except Nat Nat :=
  if path = [] then .error ENOENT
  else if path.head? = some '/' then .error ENOENT
  else
    match dirOf inodes files fds dirfd with
    | .error e => .error e
    | .ok d => walk inodes d (splitPath path)

/-- Resolution of `path` relative to `dirfd` along directories only, no
symbolic link being followed; the empty path is `ENOENT`.  The theorems name a
file or a directory by such a path. -/
def resolve (w : World) (dirfd : Int) (path : List Char) : Except Nat Nat :=
  lookupPath w.inodes w.files w.fds dirfd path

/-- The Linux constant `MAXSYMLINKS`: the symbolic links one resolution may
follow. -/
def MAXSYMLINKS : Nat := 40

/-- Whether inode `i` is a symbolic link. -/
def isLink (inodes : List Inode) (i : Nat) : Bool :=
  match inodes[i]? with
  | none => false
  | some m => decide (m.ftype = .lnk)

/-- The target of the symbolic link `i`. -/
def targetOf (inodes : List Inode) (i : Nat) : List Char :=
  match inodes[i]? with
  | none => []
  | some m => m.data

/-- Walks the components from inode `cur` as the kernel does.  A component that
names a symbolic link is replaced by the components of its target, read from
the directory that holds the link, when components remain after it or when
`follow` is set; `next` continues the walk after such a replacement.  A target
that starts with a slash leaves the model and is `ENOENT`. -/
def walkStep (inodes : List Inode) (follow : Bool)
    (next : Nat → List (List Char) → Except Nat Nat) : Nat → List (List Char) → Except Nat Nat
  | cur, [] => .ok cur
  | cur, c :: rest =>
    match inodes[cur]? with
    | none => .error ENOENT
    | some n =>
      if n.ftype ≠ .dir then .error ENOTDIR
      else
        match n.slots.find? (fun sl => sl.name = c) with
        | none => .error ENOENT
        | some sl =>
          if isLink inodes sl.ino ∧ (rest ≠ [] ∨ follow = true) then
            if (targetOf inodes sl.ino).head? = some '/' then .error ENOENT
            else next cur (splitPath (targetOf inodes sl.ino) ++ rest)
          else walkStep inodes follow next sl.ino rest

/-- The walk that follows at most `links` symbolic links; one more is
`ELOOP`. -/
def walkLinks (inodes : List Inode) (follow : Bool) :
    Nat → Nat → List (List Char) → Except Nat Nat
  | 0 => walkStep inodes follow (fun _ _ => .error ELOOP)
  | links + 1 => walkStep inodes follow (walkLinks inodes follow links)

/-- Resolution of `path` relative to `dirfd`, as done by the `*at` calls with
no `AT_EMPTY_PATH`: the empty path is `ENOENT`; symbolic links on the way are
followed, the last component only when `follow` is set. -/
def locate (w : World) (dirfd : Int) (path : List Char) (follow : Bool) : Except Nat Nat :=
  if path = [] then .error ENOENT
  else if path.head? = some '/' then .error ENOENT
  else
    match dirOf w.inodes w.files w.fds dirfd with
    | .error e => .error e
    | .ok d => walkLinks w.inodes follow MAXSYMLINKS d (splitPath path)

/-- Resolution of the parent directory of `path`, with the last component. -/
def resolveParent (w : World) (dirfd : Int) (path : List Char) :
    Except Nat (Nat × List Char) :=
  if path.head? = some '/' then .error ENOENT
  else
    match (splitPath path).reverse with
    | [] => .error ENOENT
    | name :: revParent =>
      match dirOf w.inodes w.files w.fds dirfd with
      | .error e => .error e
      | .ok d =>
        match walkLinks w.inodes true MAXSYMLINKS d revParent.reverse with
        | .error e => .error e
        | .ok p =>
          match w.inodes[p]? with
          | none => .error ENOENT
          | some n => if n.ftype = .dir then .ok (p, name) else .error ENOTDIR

/-- Replaces inode `i`. -/
def setInode (w : World) (i : Nat) (n : Inode) : World :=
  { w with inodes := w.inodes.set i n }

/-- The call `fstat`. -/
def fstat (w : World) (fd : Int) : Except Nat Stat × World :=
  match w.tick with
  | (some e, w1) => w1.fail e
  | (none, w1) =>
    match fileOf w1.files w1.fds fd with
    | none => w1.fail EBADF
    | some f =>
      match w1.inodes[f.ino]? with
      | none => w1.fail EBADF
      | some n => (.ok (statOf f.ino n), w1)

/-- The call `fstatat`: a symbolic link named by the last component is
followed unless `AT_SYMLINK_NOFOLLOW` is in `flags`. -/
def fstatat (w : World) (dirfd : Int) (path : List Char) (flags : Int) :
    Except Nat Stat × World :=
  match w.tick with
  | (some e, w1) => w1.fail e
  | (none, w1) =>
    match w1.locate dirfd path (decide (int_and flags AT_SYMLINK_NOFOLLOW = 0)) with
    | .error e => w1.fail e
    | .ok i =>
      match w1.inodes[i]? with
      | none => w1.fail ENOENT
      | some n => (.ok (statOf i n), w1)

/-- The call `readlinkat`.  The kernel takes `bufsiz` as an `int`, the low 32
bits of the `size_t` passed, and fails with `EINVAL` when that is not positive;
otherwise the target is stored, cut to that many bytes. -/
def readlinkat (w : World) (dirfd : Int) (path : List Char) (bufsiz : Nat) :
    Except Nat (List Char) × World :=
  match w.tick with
  | (some e, w1) => w1.fail e
  | (none, w1) =>
    if toInt32 bufsiz ≤ 0 then w1.fail EINVAL
    else
      match w1.locate dirfd path false with
      | .error e => w1.fail e
      | .ok i =>
        match w1.inodes[i]? with
        | none => w1.fail ENOENT
        | some n =>
          if n.ftype = .lnk then (.ok (n.data.take (toInt32 bufsiz).toNat), w1)
          else w1.fail EINVAL

/-- A new descriptor for open file description `i`, not below `lo`. -/
def install (w : World) (i : Nat) (lo : Nat) : Except Nat Nat × World :=
  match freshFd w.fds lo with
  | none => w.fail EMFILE
  | some fd => (.ok fd, { w with fds := (fd, i) :: w.fds })

/-- The call `fcntl (fd, F_DUPFD_CLOEXEC, lo)`: the new descriptor shares the
open file description, and so the offset, of `fd`. -/
def fcntl_dupfd_cloexec (w : World) (fd : Int) (lo : Int) : Except Nat Nat × World :=
  match w.tick with
  | (some e, w1) => w1.fail e
  | (none, w1) =>
    match slotOf w1.fds fd with
    | none => w1.fail EBADF
    | some i => if lo < 0 then w1.fail EINVAL else w1.install i lo.toNat

/-- The call `lseek`, for `SEEK_SET` and a non-negative offset. -/
def lseek (w : World) (fd : Int) (off : Int) (whence : Int) : Except Nat Int × World :=
  match w.tick with
  | (some e, w1) => w1.fail e
  | (none, w1) =>
    match slotOf w1.fds fd with
    | none => w1.fail EBADF
    | some i =>
      match w1.files[i]? with
      | none => w1.fail EBADF
      | some f =>
        if whence = SEEK_SET ∧ 0 ≤ off then
          (.ok off, { w1 with files := w1.files.set i { f with pos := off.toNat } })
        else w1.fail EINVAL

/-- The call `openat`: a new open file description at offset 0 and the lowest
free descriptor for it.  A symbolic link named by the last component is
followed unless `O_NOFOLLOW` is in `flags`, in which case it is `ELOOP`. -/
def openat (w : World) (dirfd : Int) (path : List Char) (flags : Int) :
    Except Nat Nat × World :=
  match w.tick with
  | (some e, w1) => w1.fail e
  | (none, w1) =>
    match w1.locate dirfd path (decide (int_and flags O_NOFOLLOW = 0)) with
    | .error e => w1.fail e
    | .ok i =>
      match w1.inodes[i]? with
      | none => w1.fail ENOENT
      | some n =>
        if n.ftype = .lnk then w1.fail ELOOP
        else if int_and flags O_DIRECTORY ≠ 0 ∧ n.ftype ≠ .dir then w1.fail ENOTDIR
        else
          install { w1 with files := w1.files ++ [{ ino := i, pos := 0 }] } w1.files.length 0

/-- The call `fdopendir`: the stream is named by its descriptor. -/
def fdopendir (w : World) (fd : Int) : Except Nat Nat × World :=
  match w.tick with
  | (some e, w1) => w1.fail e
  | (none, w1) =>
    match fileOf w1.files w1.fds fd with
    | none => w1.fail EBADF
    | some f =>
      match w1.inodes[f.ino]? with
      | none => w1.fail EBADF
      | some n => if n.ftype = .dir then (.ok fd.toNat, w1) else w1.fail ENOTDIR

/-- The call `readdir`: the entry at the stream position, which then advances;
`none` (the C `NULL`) at the end and on failure. -/
def readdir (w : World) (dp : Nat) : Option Dirent × World :=
  match w.tick with
  | (some e, w1) => (none, { w1 with errno := e })
  | (none, w1) =>
    match slotOf w1.fds dp with
    | none => (none, { w1 with errno := EBADF })
    | some i =>
      match w1.files[i]? with
      | none => (none, { w1 with errno := EBADF })
      | some f =>
        match w1.inodes[f.ino]? with
        | none => (none, { w1 with errno := EBADF })
        | some n =>
          match n.slots[f.pos]? with
          | none => (none, w1)
          | some sl =>
            (some { d_ino := sl.ino, d_off := f.pos + 1, d_reclen := 0, d_type := sl.d_type,
                    d_name := sl.name },
             { w1 with files := w1.files.set i { f with pos := f.pos + 1 } })

/-- The call `close`: the descriptor is released also when an injected failure
is reported, as on Linux. -/
def close (w : World) (fd : Int) : Except Nat Unit × World :=
  match w.tick with
  | (fault, w1) =>
    match slotOf w1.fds fd with
    | none => w1.fail EBADF
    | some _ =>
      let w2 := { w1 with fds := w1.fds.filter (fun p => decide (p.1 ≠ fd.toNat)) }
      match fault with
      | some e => w2.fail e
      | none => (.ok (), w2)

/-- The call `closedir`: closes the descriptor of the stream. -/
def closedir (w : World) (dp : Nat) : Except Nat Unit × World :=
  w.close dp

/-- The call `pread` on a regular file.  A negative offset, a count of 2^63 or
more and an end offset of 2^63 or more are `EINVAL`; otherwise the bytes from
`offset` are stored, at most `size` and at most `MAX_RW_COUNT` of them. -/
def pread (w : World) (fd : Int) (size : Nat) (offset : Int) :
    Except Nat (List Char) × World :=
  match w.tick with
  | (some e, w1) => w1.fail e
  | (none, w1) =>
    match fileOf w1.files w1.fds fd with
    | none => w1.fail EBADF
    | some f =>
      match w1.inodes[f.ino]? with
      | none => w1.fail EBADF
      | some n =>
        if offset < 0 then w1.fail EINVAL
        else if SSIZE_RANGE ≤ size then w1.fail EINVAL
        else if (SSIZE_RANGE : Int) ≤ offset + size then w1.fail EINVAL
        else if n.ftype = .dir then w1.fail EISDIR
        else if n.ftype = .reg then
          (.ok ((n.data.drop offset.toNat).take (min size MAX_RW_COUNT)), w1)
        else w1.fail EINVAL

/-- The call `symlinkat`: a new symbolic link inode and its entry. -/
def symlinkat (w : World) (target : List Char) (dirfd : Int) (linkpath : List Char) :
    Except Nat Unit × World :=
  match w.tick with
  | (some e, w1) => w1.fail e
  | (none, w1) =>
    if target = [] then w1.fail ENOENT
    else
      match w1.resolveParent dirfd linkpath with
      | .error e => w1.fail e
      | .ok (p, name) =>
        match w1.inodes[p]? with
        | none => w1.fail ENOENT
        | some n =>
          if (n.slots.find? (fun sl => sl.name = name)).isSome then w1.fail EEXIST
          else
            let link : Inode :=
              { ftype := .lnk, perm := 511, uid := n.uid, gid := n.gid, data := target,
                slots := [] }
            let n1 := { n with slots := n.slots ++ [⟨name, w1.inodes.length, DT_LNK⟩] }
            (.ok (), { w1 with inodes := w1.inodes.set p n1 ++ [link] })

/-- Whether inode `i` is a directory. -/
def isDir (w : World) (i : Nat) : Bool :=
  match w.inodes[i]? with
  | none => false
  | some n => decide (n.ftype = .dir)

/-- Whether the directory `cur` is the directory `target` or lies below it:
follows the `..` entries upwards, at most `fuel` times. -/
def below (inodes : List Inode) (target : Nat) : Nat → Nat → Bool
  | 0, _ => false
  | fuel + 1, cur =>
    if cur = target then true
    else
      match inodes[cur]? with
      | none => false
      | some n =>
        match n.slots.find? (fun sl => sl.name = ['.', '.']) with
        | none => false
        | some sl => if sl.ino = cur then false else below inodes target fuel sl.ino

/-- Whether inode `i` is a directory with entries other than `.` and `..`. -/
def hasEntries (w : World) (i : Nat) : Bool :=
  match w.inodes[i]? with
  | none => false
  | some n => n.slots.any (fun sl => decide (sl.name ≠ ['.'] ∧ sl.name ≠ ['.', '.']))

/-- The entries of a directory with the entry `moved` put under its name: in
place of an entry of that name, else at the end. -/
def putSlot (slots : List DirSlot) (moved : DirSlot) : List DirSlot :=
  if (slots.find? (fun sl => sl.name = moved.name)).isSome then
    slots.map (fun sl => if sl.name = moved.name then moved else sl)
  else slots ++ [moved]

/-- The call `renameat`.  A last component `.` or `..` is `EBUSY`; a source and
a destination that name the same inode leave everything as it is; a directory
goes only onto a free name or an empty directory and not below itself; a
non-directory does not go onto a directory.  The entry moves to the new name
and the `..` entry of a moved directory is set to the new parent. -/
def renameat (w : World) (olddirfd : Int) (oldpath : List Char) (newdirfd : Int)
    (newpath : List Char) : Except Nat Unit × World :=
  match w.tick with
  | (some e, w1) => w1.fail e
  | (none, w1) =>
    match w1.resolveParent olddirfd oldpath, w1.resolveParent newdirfd newpath with
    | .error e, _ => w1.fail e
    | _, .error e => w1.fail e
    | .ok (op, oname), .ok (np, nname) =>
      if oname = ['.'] ∨ oname = ['.', '.'] ∨ nname = ['.'] ∨ nname = ['.', '.'] then
        w1.fail EBUSY
      else
        match w1.inodes[op]?, w1.inodes[np]? with
        | none, _ => w1.fail ENOENT
        | _, none => w1.fail ENOENT
        | some od, some nd =>
          match od.slots.find? (fun sl => sl.name = oname) with
          | none => w1.fail ENOENT
          | some osl =>
            let srcDir := w1.isDir osl.ino
            let dst := nd.slots.find? (fun sl => sl.name = nname)
            if srcDir ∧ below w1.inodes osl.ino (w1.inodes.length + 1) np then w1.fail EINVAL
            else if (dst.map (fun sl => sl.ino)) = some osl.ino then (.ok (), w1)
            else if srcDir ∧ (dst.map (fun sl => w1.isDir sl.ino)) = some false then
              w1.fail ENOTDIR
            else if ¬ srcDir ∧ (dst.map (fun sl => w1.isDir sl.ino)) = some true then
              w1.fail EISDIR
            else if (dst.map (fun sl => w1.hasEntries sl.ino)) = some true then
              w1.fail ENOTEMPTY
            else
              let w2 :=
                w1.setInode op { od with slots := od.slots.filter (fun sl => sl.name ≠ oname) }
              match w2.inodes[np]? with
              | none => w1.fail ENOENT
              | some nd2 =>
                let moved : DirSlot := { osl with name := nname }
                let w3 := w2.setInode np { nd2 with slots := putSlot nd2.slots moved }
                match w3.inodes[osl.ino]? with
                | none => (.ok (), w3)
                | some m =>
                  if srcDir then
                    let up : DirSlot := ⟨['.', '.'], np, DT_DIR⟩
                    let slots1 := m.slots.map (fun sl => if sl.name = ['.', '.'] then up else sl)
                    (.ok (), w3.setInode osl.ino { m with slots := slots1 })
                  else (.ok (), w3)

/-- The call `fchmodat` with flags 0: sets the permission bits of the file the
path leads to, symbolic links followed. -/
def fchmodat (w : World) (dirfd : Int) (path : List Char) (mode : Nat) (_flags : Int) :
    Except Nat Unit × World :=
  match w.tick with
  | (some e, w1) => w1.fail e
  | (none, w1) =>
    match w1.locate dirfd path true with
    | .error e => w1.fail e
    | .ok i =>
      match w1.inodes[i]? with
      | none => w1.fail ENOENT
      | some n => (.ok (), w1.setInode i { n with perm := mode % 4096 })

/-- The call `fchownat`; the value 2^32 - 1 (`-1`) leaves an id as it is.  A
symbolic link named by the last component is followed unless
`AT_SYMLINK_NOFOLLOW` is in `flags`. -/
def fchownat (w : World) (dirfd : Int) (path : List Char) (uid gid : Nat) (flags : Int) :
    Except Nat Unit × World :=
  match w.tick with
  | (some e, w1) => w1.fail e
  | (none, w1) =>
    match w1.locate dirfd path (decide (int_and flags AT_SYMLINK_NOFOLLOW = 0)) with
    | .error e => w1.fail e
    | .ok i =>
      match w1.inodes[i]? with
      | none => w1.fail ENOENT
      | some n =>
        (.ok (), w1.setInode i
          { n with uid := if uid = 4294967295 then n.uid else uid,
                   gid := if gid = 4294967295 then n.gid else gid })

/-- The call `faccessat` with flags 0, for a caller that owns every file: the
probe bits are checked against the owner permission bits of the file the path
leads to, symbolic links followed. -/
def faccessat (w : World) (dirfd : Int) (path : List Char) (mode : Int) (_flags : Int) :
    Except Nat Unit × World :=
  match w.tick with
  | (some e, w1) => w1.fail e
  | (none, w1) =>
    if mode < 0 ∨ 7 < mode then w1.fail EINVAL
    else
      match w1.locate dirfd path true with
      | .error e => w1.fail e
      | .ok i =>
        match w1.inodes[i]? with
        | none => w1.fail ENOENT
        | some n =>
          if Nat.land (n.perm / 64 % 8) mode.toNat = mode.toNat then (.ok (), w1)
          else w1.fail EACCES

end World

/-- The model as a `Kernel`. -/
def posix : Kernel World where
  errno := World.errno
  fstat := World.fstat
  fstatat := World.fstatat
  readlinkat := World.readlinkat
  fcntl_dupfd_cloexec := World.fcntl_dupfd_cloexec
  lseek := World.lseek
  openat := World.openat
  fdopendir := World.fdopendir
  readdir := World.readdir
  closedir := World.closedir
  close := World.close
  pread := World.pread
  symlinkat := World.symlinkat
  renameat := World.renameat
  fchmodat := World.fchmodat
  fchownat := World.fchownat
  faccessat := World.faccessat

/-! ## An example filesystem -/

/-- A directory inode with the given entries. -/
def mkDir (perm : Nat) (slots : List DirSlot) : Inode :=
  { ftype := .dir, perm := perm, uid := 1000, gid := 1000, data := [], slots := slots }

/-- A regular file inode. -/
def mkReg (perm : Nat) (data : List Char) : Inode :=
  { ftype := .reg, perm := perm, uid := 1000, gid := 1000, data := data, slots := [] }

/-- A symbolic link inode. -/
def mkLnk (target : List Char) : Inode :=
  { ftype := .lnk, perm := 511, uid := 1000, gid := 1000, data := target, slots := [] }

/-- The base directory of the example (inode 0): the regular file `a`, the
directory `d`, the symbolic link `l` and the regular file `u`, whose entry
carries `DT_UNKNOWN`. -/
def exampleRoot : Inode :=
  mkDir 493 [⟨".".toList, 0, DT_DIR⟩, ⟨"..".toList, 0, DT_DIR⟩, ⟨"a".toList, 1, DT_REG⟩,
             ⟨"d".toList, 2, DT_DIR⟩, ⟨"l".toList, 3, DT_LNK⟩, ⟨"u".toList, 4, DT_UNKNOWN⟩]

/-- The directory `d` of the example (inode 2), mode 0755, with the file `x`. -/
def exampleDir : Inode :=
  mkDir 493 [⟨".".toList, 2, DT_DIR⟩, ⟨"..".toList, 0, DT_DIR⟩, ⟨"x".toList, 5, DT_REG⟩]

/-- The inode table of the example: `a` has mode 0644 and content
`hello world`, `l` points to `a`, `x` has mode 0600.  Inode 6 is a terminal
outside the tree. -/
def exampleInodes : List Inode :=
  [ exampleRoot,
    mkReg 420 "hello world".toList,
    exampleDir,
    mkLnk "a".toList,
    mkReg 420 "u".toList,
    mkReg 384 "xyz".toList,
    { ftype := .chr, perm := 400, uid := 0, gid := 5, data := [], slots := [] } ]

/-- The example state: descriptors 0, 1 and 2 are the terminal, descriptor 3
is the base directory; no failure is scheduled. -/
def exampleWorld : World :=
  { inodes := exampleInodes,
    files := [{ ino := 0, pos := 0 }, { ino := 6, pos := 0 }],
    fds := [(0, 1), (1, 1), (2, 1), (3, 0)],
    faults := [],
    errno := 0 }

/-- The descriptor of the base directory in the example. -/
def exampleBasefd : Int := 3

/-- A state whose base directory holds one regular file, `big`, of 2^31
bytes. -/
def bigFileWorld : World :=
  { exampleWorld with
    inodes :=
      [ mkDir 493 [⟨".".toList, 0, DT_DIR⟩, ⟨"..".toList, 0, DT_DIR⟩, ⟨"big".toList, 1, DT_REG⟩],
        mkReg 420 (List.replicate 2147483648 'x') ] }

/-! ## The listing, as the specification words it -/

/-- What `callback_readdir` is to report for a directory entry: the name, and
a stat that is zero except for `st_ino = d_ino` and `st_mode = d_type << 12`. -/
def reported (sl : DirSlot) : List Char × Stat :=
  (sl.name, ⟨0, sl.ino, sl.d_type <<< 12, 0, 0, 0, 0, 0, 0, 0, 0, 0, 0⟩)

/-- The listing as the claim words it: the entries are passed to the filler in
order, each once, until the filler returns non-zero or the entries end.  The
result is the accumulation buffer. -/
def feed {β : Type} (filler : β → List Char → Stat → Int → Int × β) :
    List (List Char × Stat) → β → β
  | [], buf => buf
  | e :: rest, buf =>
    match filler buf e.1 e.2 0 with
    | (r, buf1) => if r ≠ 0 then buf1 else feed filler rest buf1

/-- A filler that appends each reported entry to the buffer and never asks to
stop. -/
def recordAll (buf : List (List Char × Stat)) (name : List Char) (st : Stat) (_off : Int) :
    Int × List (List Char × Stat) :=
  (0, buf ++ [(name, st)])

/-- A filler that stores the reported entry and asks to stop. -/
def recordOne (buf : List (List Char × Stat)) (name : List Char) (st : Stat) (_off : Int) :
    Int × List (List Char × Stat) :=
  (1, buf ++ [(name, st)])

/-- A state whose base directory holds one symbolic link, `h`, with target
`hello`. -/
def linkWorld : World :=
  { exampleWorld with
    inodes :=
      [ mkDir 493 [⟨".".toList, 0, DT_DIR⟩, ⟨"..".toList, 0, DT_DIR⟩, ⟨"h".toList, 1, DT_LNK⟩],
        mkLnk "hello".toList ] }

/-! # Theorems -/

/-! ## Path resolver: proofs -/

theorem strspn_slash_replicate (k : Nat) (r : List Char) (h : r.head? ≠ some '/') :
    strspn (List.replicate k '/' ++ r) ['/'] = k := by
  induction k with
  | zero =>
    cases r with
    | nil => rfl
    | cons c cs =>
      have hc : c ≠ '/' := by simpa using h
      simp [strspn, hc]
  | succ n ih => simp [List.replicate_succ, strspn, ih]

theorem ENSURE_RELPATH_decomp (p : List Char) :
    p = List.replicate (strspn p ['/']) '/' ++ ENSURE_RELPATH p ∧
      (ENSURE_RELPATH p).head? ≠ some '/' := by
  induction p with
  | nil => simp [ENSURE_RELPATH, strspn]
  | cons c cs ih =>
    by_cases hc : c = '/'
    · subst hc
      have h1 : strspn ('/' :: cs) ['/'] = strspn cs ['/'] + 1 := by simp [strspn]
      have h2 : ENSURE_RELPATH ('/' :: cs) = ENSURE_RELPATH cs := by
        simp [ENSURE_RELPATH, h1]
      rw [h2, h1, List.replicate_succ, List.cons_append]
      exact ⟨congrArg _ ih.1, ih.2⟩
    · have h1 : strspn (c :: cs) ['/'] = 0 := by simp [strspn, hc]
      simp [ENSURE_RELPATH, h1, hc]

theorem ENSURE_RELPATH_of_head (p : List Char) (h : p.head? ≠ some '/') :
    ENSURE_RELPATH p = p := by
  have := strspn_slash_replicate 0 p h
  simp at this
  simp [ENSURE_RELPATH, this]

/-- C8. `ENSURE_RELPATH` removes exactly the maximal run of leading slashes: the
input is `k` slashes followed by the output, the output does not start with a
slash, an all-slash input gives the empty string, the function is idempotent,
and whatever follows the leading run (inner slashes included) is returned
unchanged. -/
theorem ENSURE_RELPATH_strips_leading_slashes :
    (∀ p : List Char, ∃ k, p = List.replicate k '/' ++ ENSURE_RELPATH p ∧
        (ENSURE_RELPATH p).head? ≠ some '/') ∧
    (∀ k : Nat, ENSURE_RELPATH (List.replicate k '/') = []) ∧
    (∀ p : List Char, ENSURE_RELPATH (ENSURE_RELPATH p) = ENSURE_RELPATH p) ∧
    (∀ (k : Nat) (r : List Char), r.head? ≠ some '/' →
        ENSURE_RELPATH (List.replicate k '/' ++ r) = r) := by
  have key : ∀ (k : Nat) (r : List Char), r.head? ≠ some '/' →
      ENSURE_RELPATH (List.replicate k '/' ++ r) = r := by
    intro k r h
    simp [ENSURE_RELPATH, strspn_slash_replicate k r h]
  refine ⟨fun p => ⟨_, ENSURE_RELPATH_decomp p⟩, ?_, ?_, key⟩
  · intro k
    simpa using key k [] (by simp)
  · intro p
    exact ENSURE_RELPATH_of_head _ (ENSURE_RELPATH_decomp p).2

/-- C8 at a concrete path: `//usr//lib/` resolves to `usr//lib/`, with the
inner and the trailing slashes kept, and `///` resolves to the empty path. -/
theorem ENSURE_RELPATH_strips_leading_slashes_witness :
    "usr//lib/".toList.head? ≠ some '/' ∧
    ENSURE_RELPATH (List.replicate 2 '/' ++ "usr//lib/".toList) = "usr//lib/".toList ∧
    ENSURE_RELPATH "//usr//lib/".toList = "usr//lib/".toList ∧
    ENSURE_RELPATH "///".toList = [] :=
  ⟨by decide, ENSURE_RELPATH_strips_leading_slashes.2.2.2 2 "usr//lib/".toList (by decide),
    by decide, by decide⟩

/-! ## Statically denied handlers -/

theorem int_and_zero (x : Int) : int_and x 0 = 0 := by
  have h : Nat.land (toU32 x) (toU32 0) = 0 := Nat.and_zero (toU32 x)
  rw [int_and, h]
  decide

/-- C1. The statically denied handlers return their fixed code and leave the
kernel state as it was, for every kernel, state and argument: `-EROFS` for
mknod, truncate, utime, write, fsync and for open with access mode `O_WRONLY`
or `O_RDWR`; `-ENOTSUP` for the four extended-attribute handlers. -/
theorem denied_handlers_return_fixed_code {σ : Type} (k : Kernel σ) (s : σ)
    (path name value buf : List Char) (mode rdev size : Nat) (off crap flags : Int)
    (times : Int × Int) :
    callback_mknod k path mode rdev s = (-(EROFS : Int), s) ∧
    callback_truncate k path off s = (-(EROFS : Int), s) ∧
    callback_utime k path times s = (-(EROFS : Int), s) ∧
    callback_write k path buf size off s = (-(EROFS : Int), s) ∧
    callback_fsync k path crap s = (-(EROFS : Int), s) ∧
    (int_and flags O_ACCMODE = O_WRONLY ∨ int_and flags O_ACCMODE = O_RDWR →
      callback_open k path flags s = (-(EROFS : Int), s)) ∧
    callback_setxattr k path name value size flags s = (-(ENOTSUP : Int), s) ∧
    callback_getxattr k path name size s = (-(ENOTSUP : Int), s) ∧
    callback_listxattr k path size s = (-(ENOTSUP : Int), s) ∧
    callback_removexattr k path name s = (-(ENOTSUP : Int), s) := by
  refine ⟨rfl, rfl, rfl, rfl, rfl, ?_, rfl, rfl, rfl, rfl⟩
  intro _
  simp [callback_open, O_RDONLY, int_and_zero]

/-- C1 on the example filesystem: opening `/a` with `O_WRONLY | O_APPEND`
(flags 1025) or with `O_RDWR` (flags 2) returns -30 and the state is
unchanged. -/
theorem denied_handlers_return_fixed_code_witness :
    ((int_and 1025 O_ACCMODE = O_WRONLY ∨ int_and 1025 O_ACCMODE = O_RDWR) ∧
      callback_open posix "/a".toList 1025 exampleWorld = (-30, exampleWorld)) ∧
    ((int_and 2 O_ACCMODE = O_WRONLY ∨ int_and 2 O_ACCMODE = O_RDWR) ∧
      callback_open posix "/a".toList 2 exampleWorld = (-30, exampleWorld)) :=
  ⟨⟨by decide,
    (denied_handlers_return_fixed_code posix exampleWorld "/a".toList [] [] [] 0 0 0 0 0 1025
      (0, 0)).2.2.2.2.2.1 (by decide)⟩,
   ⟨by decide,
    (denied_handlers_return_fixed_code posix exampleWorld "/a".toList [] [] [] 0 0 0 0 0 2
      (0, 0)).2.2.2.2.2.1 (by decide)⟩⟩

/-- C2. Opening for reading is denied: with `finfo->flags = O_RDONLY` the
handler returns `-EROFS` (-30), not 0, for every kernel, state and path, since
`flags & O_RDONLY` is `flags & 0`. -/
theorem callback_open_rdonly_returns_erofs {σ : Type} (k : Kernel σ) (s : σ)
    (path : List Char) :
    callback_open k path O_RDONLY s = (-(EROFS : Int), s) ∧
      (callback_open k path O_RDONLY s).1 = -30 := by
  have h : callback_open k path O_RDONLY s = (-(EROFS : Int), s) := by
    simp [callback_open, O_RDONLY, int_and_zero]
  exact ⟨h, by rw [h]; rfl⟩

/-! ## Access check -/

/-- C4. With the `W_OK` bit in the probe the handler returns `-EROFS` and the
state it was given, whatever the kernel is; without it the result is the
outcome of `faccessat (basefd, ENSURE_RELPATH (path), mode, 0)`: 0 on success,
the negated errno on failure.  The test `mode & W_OK` is non-zero for `W_OK`
alone and combined with `R_OK` and `X_OK`, and zero for the other probes. -/
theorem callback_access_denies_write_probe {σ : Type} (k : Kernel σ) (basefd : Int)
    (path : List Char) (mode : Int) (s : σ) :
    (int_and mode W_OK ≠ 0 → callback_access k basefd path mode s = (-(EROFS : Int), s)) ∧
    (int_and mode W_OK = 0 →
      callback_access k basefd path mode s =
        match k.faccessat s basefd (ENSURE_RELPATH path) mode 0 with
        | (.ok _, s1) => (0, s1)
        | (.error e, s1) => (-(e : Int), s1)) ∧
    (∀ m ∈ [W_OK, W_OK + X_OK, W_OK + R_OK, W_OK + R_OK + X_OK], int_and m W_OK ≠ 0) ∧
    (∀ m ∈ [F_OK, X_OK, R_OK, R_OK + X_OK], int_and m W_OK = 0) := by
  refine ⟨?_, ?_, by decide, by decide⟩
  · intro h
    simp [callback_access, h]
  · intro h
    simp only [callback_access, h, ne_eq, not_true_eq_false, if_false]
    cases hr : k.faccessat s basefd (ENSURE_RELPATH path) mode 0 with
    | mk r s1 => cases r <;> rfl

/-- C4 on the example filesystem, where `/a` has mode 0644 and the kernel would
grant write access: the probe `R_OK | W_OK` is denied with the state untouched,
the probe `R_OK` succeeds and the probe `X_OK` gets the kernel's `-EACCES`. -/
theorem callback_access_denies_write_probe_witness :
    (int_and 6 W_OK ≠ 0 ∧ (posix.faccessat exampleWorld exampleBasefd "a".toList 6 0).1 = .ok () ∧
      callback_access posix exampleBasefd "/a".toList 6 exampleWorld = (-30, exampleWorld)) ∧
    (int_and 4 W_OK = 0 ∧
      callback_access posix exampleBasefd "/a".toList 4 exampleWorld = (0, exampleWorld)) ∧
    (int_and 1 W_OK = 0 ∧
      (callback_access posix exampleBasefd "/a".toList 1 exampleWorld).1 = -13) :=
  ⟨⟨by decide, by decide,
    (callback_access_denies_write_probe posix exampleBasefd "/a".toList 6 exampleWorld).1
      (by decide)⟩,
   ⟨by decide,
    ((callback_access_denies_write_probe posix exampleBasefd "/a".toList 4 exampleWorld).2.1
      (by decide)).trans (by decide)⟩,
   ⟨by decide,
    (congrArg Prod.fst
      ((callback_access_denies_write_probe posix exampleBasefd "/a".toList 1 exampleWorld).2.1
        (by decide))).trans (by decide)⟩⟩

/-! ## Facts about the kernel model -/

namespace World

theorem tick_of_no_fault (w : World) (h : w.faults = []) : w.tick = (none, w) := by
  simp [tick, h]

theorem freshFd_spec (fds : List (Nat × Nat)) (lo : Nat) :
    ∃ fd, freshFd fds lo = some fd ∧ fd ∉ fds.map Prod.fst := by
  cases hf : freshFd fds lo with
  | some fd =>
    refine ⟨fd, rfl, ?_⟩
    have := List.find?_some hf
    simpa using this
  | none =>
    exfalso
    have hall : ∀ n ∈ List.range' lo (fds.length + 1), n ∈ fds.map Prod.fst := by
      intro n hn
      have := List.find?_eq_none.1 hf n hn
      simpa using this
    have hsub : List.range' lo (fds.length + 1) ⊆ fds.map Prod.fst := hall
    have hlen := (List.subperm_of_subset (List.nodup_range' lo (fds.length + 1)) hsub).length_le
    simp at hlen

theorem slotOf_cons_self (fd i : Nat) (fds : List (Nat × Nat)) :
    slotOf ((fd, i) :: fds) (fd : Int) = some i := by
  simp [slotOf, List.lookup]

theorem filter_fds_restore (fds : List (Nat × Nat)) (fd i : Nat) (h : fd ∉ fds.map Prod.fst) :
    ((fd, i) :: fds).filter (fun p => decide (p.1 ≠ fd)) = fds := by
  have h1 : fds.filter (fun p => decide (p.1 ≠ fd)) = fds := by
    apply List.filter_eq_self.2
    intro p hp
    have : p.1 ≠ fd := fun heq => h (heq ▸ List.mem_map_of_mem Prod.fst hp)
    simpa using this
  rw [List.filter_cons_of_neg (by simp)]
  exact h1

theorem close_head (inodes : List Inode) (files : List OpenFile) (fd i : Nat)
    (fds : List (Nat × Nat)) (errno : Nat) (h : fd ∉ fds.map Prod.fst) :
    close ⟨inodes, files, (fd, i) :: fds, [], errno⟩ fd
      = (.ok (), ⟨inodes, files, fds, [], errno⟩) := by
  have hfd0 : ¬ ((fd : Int) < 0) := by omega
  have hr := filter_fds_restore fds fd i h
  simp only [close, tick, slotOf, hfd0, if_false, Int.toNat_ofNat, List.lookup, beq_self_eq_true]
  rw [hr]

theorem walkStep_of_walk (inodes : List Inode) (follow : Bool)
    (next : Nat → List (List Char) → Except Nat Nat) :
    ∀ (comps : List (List Char)) (cur d : Nat), walk inodes cur comps = .ok d →
      (follow = true → isLink inodes d = false) →
      walkStep inodes follow next cur comps = .ok d := by
  intro comps
  induction comps with
  | nil =>
    intro cur d h _
    simpa [walk, walkStep] using h
  | cons c rest ih =>
    intro cur d h hl
    unfold walk at h
    unfold walkStep
    cases hc : inodes[cur]? with
    | none => simp [hc] at h
    | some n =>
      simp only [hc] at h ⊢
      by_cases hd : n.ftype ≠ .dir
      · simp [hd] at h
      · rw [if_neg hd] at h ⊢
        cases hs : n.slots.find? (fun sl => sl.name = c) with
        | none => simp [hs] at h
        | some sl =>
          simp only [hs] at h ⊢
          have hno : ¬ (isLink inodes sl.ino = true ∧ (rest ≠ [] ∨ follow = true)) := by
            rintro ⟨h1, h2⟩
            cases rest with
            | nil =>
              have hd2 : d = sl.ino := by simpa [walk] using h.symm
              rcases h2 with h2 | h2
              · exact h2 rfl
              · have := hl h2
                rw [hd2, h1] at this
                exact Bool.noConfusion this
            | cons c2 r2 =>
              unfold walk at h
              unfold isLink at h1
              cases hm : inodes[sl.ino]? with
              | none => simp [hm] at h
              | some m =>
                simp only [hm] at h h1
                by_cases hmd : m.ftype ≠ .dir
                · simp [hmd] at h
                · have hmd2 : m.ftype = .dir := not_not.1 hmd
                  rw [hmd2] at h1
                  exact absurd h1 (by decide)
          rw [if_neg hno]
          exact ih sl.ino d h hl

theorem locate_of_resolve (w : World) (dirfd : Int) (path : List Char) (d : Nat)
    (follow : Bool) (h : w.resolve dirfd path = .ok d)
    (hl : follow = true → isLink w.inodes d = false) :
    w.locate dirfd path follow = .ok d := by
  unfold resolve lookupPath at h
  unfold locate
  by_cases h1 : path = []
  · simp [h1] at h
  · rw [if_neg h1] at h ⊢
    by_cases h2 : path.head? = some '/'
    · simp [h2] at h
    · rw [if_neg h2] at h ⊢
      cases hd : dirOf w.inodes w.files w.fds dirfd with
      | error e => simp [hd] at h
      | ok b =>
        simp only [hd] at h ⊢
        exact walkStep_of_walk w.inodes follow _ _ b d h hl

theorem isLink_of_ftype (inodes : List Inode) (i : Nat) (n : Inode) (hino : inodes[i]? = some n)
    (h : n.ftype ≠ .lnk) : isLink inodes i = false := by
  simp [isLink, hino, h]

end World

/-! ## Content read -/

theorem posix_openat_regular (w : World) (basefd : Int) (rel : List Char) (ino : Nat)
    (n : Inode) (hf : w.faults = []) (hres : w.resolve basefd rel = .ok ino)
    (hino : w.inodes[ino]? = some n) (hreg : n.ftype = .reg) :
    ∃ fd, fd ∉ w.openFds ∧
      World.openat w basefd rel O_RDONLY =
        (.ok fd, ⟨w.inodes, w.files ++ [⟨ino, 0⟩], (fd, w.files.length) :: w.fds, [],
          w.errno⟩) := by
  obtain ⟨fd, hfd, hnot⟩ := World.freshFd_spec w.fds 0
  refine ⟨fd, hnot, ?_⟩
  have hflag : int_and O_RDONLY O_DIRECTORY = 0 := by decide
  have hloc : ∀ follow, w.locate basefd rel follow = .ok ino := fun follow =>
    World.locate_of_resolve w basefd rel ino follow hres
      (fun _ => World.isLink_of_ftype w.inodes ino n hino (by rw [hreg]; decide))
  simp [World.openat, World.tick_of_no_fault w hf, hloc, hino, hreg, World.install, hfd, hflag,
    hf]

theorem toInt32_of_le (n : Nat) (h : n ≤ INT_MAX) : toInt32 n = n := by
  unfold toInt32
  unfold INT_MAX at h
  omega

/-- On the model with no failure scheduled, for a regular file, a non-negative
offset and a count and an end offset below 2^63: `callback_read` returns the
number of bytes from `offset` on, at most `size` and at most `MAX_RW_COUNT`,
with exactly those bytes stored. -/
theorem posix_read_regular (w : World) (basefd : Int) (path : List Char) (ino : Nat)
    (n : Inode) (size : Nat) (offset : Int) (hf : w.faults = [])
    (hres : w.resolve basefd (ENSURE_RELPATH path) = .ok ino)
    (hino : w.inodes[ino]? = some n) (hreg : n.ftype = .reg) (hoff : 0 ≤ offset)
    (hsize : size < SSIZE_RANGE) (hend : offset + size < (SSIZE_RANGE : Int)) :
    callback_read posix basefd path size offset w =
      ((((n.data.drop offset.toNat).take (min size MAX_RW_COUNT)).length : Int),
       (n.data.drop offset.toNat).take (min size MAX_RW_COUNT),
       ⟨w.inodes, w.files ++ [⟨ino, 0⟩], w.fds, [], w.errno⟩) := by
  obtain ⟨fd, hnot, hopen⟩ := posix_openat_regular w basefd _ ino n hf hres hino hreg
  have hnlt : ¬ offset < 0 := not_lt.2 hoff
  have hns : ¬ SSIZE_RANGE ≤ size := not_le.2 hsize
  have hne2 : ¬ (SSIZE_RANGE : Int) ≤ offset + size := not_le.2 hend
  have hne : ((fd : Int) ≠ -1) := by omega
  have hfd0 : ¬ ((fd : Int) < 0) := by omega
  have hpread : World.pread ⟨w.inodes, w.files ++ [⟨ino, 0⟩], (fd, w.files.length) :: w.fds, [],
      w.errno⟩ fd size offset
        = (.ok ((n.data.drop offset.toNat).take (min size MAX_RW_COUNT)),
        ⟨w.inodes, w.files ++ [⟨ino, 0⟩], (fd, w.files.length) :: w.fds, [], w.errno⟩) := by
    simp only [World.pread, World.tick, World.fileOf, World.slotOf, hfd0, if_false,
      Int.toNat_ofNat, List.lookup, beq_self_eq_true, List.getElem?_concat_length, hino, hnlt,
      hns, hne2, hreg]
    simp
  have hclose := World.close_head w.inodes (w.files ++ [⟨ino, 0⟩]) fd w.files.length w.fds
    w.errno hnot
  have hlen : ((n.data.drop offset.toNat).take (min size MAX_RW_COUNT)).length ≤ INT_MAX := by
    have h1 : ((n.data.drop offset.toNat).take (min size MAX_RW_COUNT)).length
        ≤ min size MAX_RW_COUNT := List.length_take_le _ _
    have h2 : min size MAX_RW_COUNT ≤ MAX_RW_COUNT := min_le_right _ _
    have h3 : MAX_RW_COUNT ≤ INT_MAX := by decide
    omega
  have hr : toInt32 ((n.data.drop offset.toNat).take (min size MAX_RW_COUNT)).length ≠ -1 := by
    rw [toInt32_of_le _ hlen]
    omega
  rw [toInt32_of_le _ hlen] at hr
  simp only [callback_read, posix, hopen, hpread, glnx_cleanup_close_fdp, hne, ne_eq,
    not_false_eq_true, if_true, hclose, toInt32_of_le _ hlen]
  rw [if_neg hr]

/-- C6, as amended. For a regular file with content `n.data`, an offset
`0 ≤ offset` and a length `size` of at most `MAX_RW_COUNT` (0x7ffff000) with
`offset + size` below 2^63, and with no failure scheduled, `callback_read`
returns `min size (|n.data| - offset)`, `pread` has stored exactly the bytes
`n.data[offset .. offset + count)` at the start of the buffer, and the inode
table and the open descriptors are as before.  For every kernel, a failing
`openat` or a failing `pread` makes the handler return the negated errno of
that call. -/
theorem callback_read_returns_file_bytes :
    (∀ (w : World) (basefd : Int) (path : List Char) (ino : Nat) (n : Inode) (size : Nat)
        (offset : Int),
      w.faults = [] → w.resolve basefd (ENSURE_RELPATH path) = .ok ino →
      w.inodes[ino]? = some n → n.ftype = .reg → 0 ≤ offset →
      size ≤ MAX_RW_COUNT → offset + size < (SSIZE_RANGE : Int) →
      ∃ w' : World, callback_read posix basefd path size offset w =
          (((min size (n.data.length - offset.toNat) : Nat) : Int),
            (n.data.drop offset.toNat).take size, w') ∧
        ((n.data.drop offset.toNat).take size).length
          = min size (n.data.length - offset.toNat) ∧
        w'.inodes = w.inodes ∧ w'.openFds = w.openFds) ∧
    (∀ (σ : Type) (k : Kernel σ) (basefd : Int) (path : List Char) (size : Nat) (offset : Int)
        (s s1 : σ) (e : Nat),
      k.openat s basefd (ENSURE_RELPATH path) O_RDONLY = (.error e, s1) →
      callback_read k basefd path size offset s = (-(e : Int), [], s1)) ∧
    (∀ (σ : Type) (k : Kernel σ) (basefd : Int) (path : List Char) (size : Nat) (offset : Int)
        (s s1 s2 : σ) (fd e : Nat),
      k.openat s basefd (ENSURE_RELPATH path) O_RDONLY = (.ok fd, s1) →
      k.pread s1 fd size offset = (.error e, s2) →
      (callback_read k basefd path size offset s).1 = -(e : Int)) := by
  refine ⟨?_, ?_, ?_⟩
  · intro w basefd path ino n size offset hf hres hino hreg hoff hmax hend
    have hlen : ((n.data.drop offset.toNat).take size).length
        = min size (n.data.length - offset.toNat) := by
      simp [List.length_take, List.length_drop]
    have hsize : size < SSIZE_RANGE :=
      lt_of_le_of_lt hmax (by decide : MAX_RW_COUNT < SSIZE_RANGE)
    refine ⟨⟨w.inodes, w.files ++ [⟨ino, 0⟩], w.fds, [], w.errno⟩, ?_, hlen, rfl, rfl⟩
    rw [posix_read_regular w basefd path ino n size offset hf hres hino hreg hoff hsize hend,
      min_eq_left hmax, hlen]
  · intro σ k basefd path size offset s s1 e hopen
    simp [callback_read, hopen, glnx_cleanup_close_fdp]
  · intro σ k basefd path size offset s s1 s2 fd e hopen hpread
    simp [callback_read, hopen, hpread]

/-- C6 on the example filesystem: reading 5 bytes at offset 6 of `/a` returns
5 and the bytes `world`; reading 100 bytes at offset 6 returns the 5 bytes
left; reading the missing `/zz` returns `-ENOENT`; reading the directory `/d`
returns the `-EISDIR` of `pread`. -/
theorem callback_read_returns_file_bytes_witness :
    (exampleWorld.faults = [] ∧
      exampleWorld.resolve exampleBasefd (ENSURE_RELPATH "/a".toList) = .ok 1 ∧
      exampleWorld.inodes[1]? = some (mkReg 420 "hello world".toList) ∧
      (0 : Int) ≤ 6 ∧ 5 ≤ MAX_RW_COUNT ∧ (6 : Int) + (5 : Nat) < (SSIZE_RANGE : Int) ∧
      ∃ w' : World, callback_read posix exampleBasefd "/a".toList 5 6 exampleWorld
          = (5, "world".toList, w') ∧
        w'.inodes = exampleWorld.inodes ∧ w'.openFds = exampleWorld.openFds) ∧
    (callback_read posix exampleBasefd "/a".toList 100 6 exampleWorld).1 = 5 ∧
    (posix.openat exampleWorld exampleBasefd (ENSURE_RELPATH "/zz".toList) O_RDONLY
        = (.error ENOENT, { exampleWorld with errno := ENOENT }) ∧
      callback_read posix exampleBasefd "/zz".toList 5 0 exampleWorld
        = (-2, [], { exampleWorld with errno := ENOENT })) ∧
    (callback_read posix exampleBasefd "/d".toList 5 0 exampleWorld).1 = -21 := by
  refine ⟨⟨by decide, by decide, by decide, by decide, by decide, by decide, ?_⟩, by decide,
    ⟨by decide, ?_⟩, ?_⟩
  · obtain ⟨w', h1, _, h3, h4⟩ :=
      callback_read_returns_file_bytes.1 exampleWorld exampleBasefd "/a".toList 1
        (mkReg 420 "hello world".toList) 5 6 (by decide) (by decide) (by decide) (by decide)
        (by decide) (by decide) (by decide)
    exact ⟨w', h1, h3, h4⟩
  · exact callback_read_returns_file_bytes.2.1 World posix exampleBasefd "/zz".toList 5 0
      exampleWorld { exampleWorld with errno := ENOENT } ENOENT (by decide)
  · exact callback_read_returns_file_bytes.2.2 World posix exampleBasefd "/d".toList 5 0
      exampleWorld
      ⟨exampleWorld.inodes, exampleWorld.files ++ [⟨2, 0⟩], (4, 2) :: exampleWorld.fds, [], 0⟩
      ⟨exampleWorld.inodes, exampleWorld.files ++ [⟨2, 0⟩], (4, 2) :: exampleWorld.fds, [],
        EISDIR⟩
      4 EISDIR (by decide) (by decide)

theorem bigFile_length :
    (mkReg 420 (List.replicate 2147483648 'x')).data.length = 2147483648 :=
  List.length_replicate _ _

/-- C6, counterexample. On a regular file of 2^31 bytes, for a read of 2^31
bytes at offset 0 the claimed count `min size (|c| - offset)` is 2147483648,
but `pread` transfers `MAX_RW_COUNT` bytes and the handler returns
2147479552. -/
theorem callback_read_count_capped :
    bigFileWorld.resolve exampleBasefd (ENSURE_RELPATH "/big".toList) = .ok 1 ∧
    bigFileWorld.inodes[1]? = some (mkReg 420 (List.replicate 2147483648 'x')) ∧
    min 2147483648 ((mkReg 420 (List.replicate 2147483648 'x')).data.length - (0 : Int).toNat)
      = 2147483648 ∧
    (callback_read posix exampleBasefd "/big".toList 2147483648 0 bigFileWorld).1
      = 2147479552 := by
  have hres : bigFileWorld.resolve exampleBasefd (ENSURE_RELPATH "/big".toList) = .ok 1 := by
    decide
  have hino : bigFileWorld.inodes[1]? = some (mkReg 420 (List.replicate 2147483648 'x')) := rfl
  refine ⟨hres, hino, by rw [bigFile_length]; decide, ?_⟩
  rw [posix_read_regular bigFileWorld exampleBasefd "/big".toList 1 _ 2147483648 0 rfl hres hino
    rfl (le_refl 0) (by decide) (by decide)]
  rw [List.length_take, List.length_drop, bigFile_length]
  decide

/-! ## Descriptors of `callback_read` -/

theorem tick_fds (w : World) : w.tick.2.fds = w.fds := by
  unfold World.tick
  split <;> rfl

theorem posix_openat_fds (w : World) (dirfd : Int) (path : List Char) (flags : Int) :
    match World.openat w dirfd path flags with
    | (.error _, w1) => w1.fds = w.fds
    | (.ok fd, w1) => ∃ i, w1.fds = (fd, i) :: w.fds ∧ fd ∉ w.openFds := by
  have ht := tick_fds w
  unfold World.openat
  cases hk : w.tick with
  | mk fault w0 =>
    rw [hk] at ht
    simp only at ht
    cases fault with
    | some e => simpa [World.fail] using ht
    | none =>
      simp only
      cases hr : w0.locate dirfd path (decide (int_and flags O_NOFOLLOW = 0)) with
      | error e => simpa [World.fail] using ht
      | ok i =>
        simp only
        cases hi : w0.inodes[i]? with
        | none => simpa [World.fail] using ht
        | some n =>
          simp only
          by_cases h1 : n.ftype = .lnk
          · rw [if_pos h1]
            simpa [World.fail] using ht
          · rw [if_neg h1]
            generalize int_and flags O_DIRECTORY = v
            by_cases h2 : v ≠ 0 ∧ n.ftype ≠ .dir
            · rw [if_pos h2]
              simpa [World.fail] using ht
            · rw [if_neg h2]
              unfold World.install
              obtain ⟨fd, hfd, hnot⟩ := World.freshFd_spec w0.fds 0
              simp only [hfd]
              refine ⟨w0.files.length, ?_, ?_⟩
              · simp [ht]
              · simpa [World.openFds, ht] using hnot

theorem posix_pread_fds (w : World) (fd : Int) (size : Nat) (offset : Int) :
    (World.pread w fd size offset).2.fds = w.fds := by
  have ht := tick_fds w
  unfold World.pread
  cases hk : w.tick with
  | mk fault w0 =>
    rw [hk] at ht
    simp only at ht
    cases fault with
    | some e => simpa [World.fail] using ht
    | none =>
      simp only
      cases hfile : World.fileOf w0.files w0.fds fd with
      | none => simpa [World.fail] using ht
      | some f =>
        simp only
        cases hi : w0.inodes[f.ino]? with
        | none => simpa [World.fail] using ht
        | some n =>
          simp only
          split_ifs <;> simpa [World.fail] using ht

theorem posix_close_head_fds (w : World) (fd i : Nat) (fds : List (Nat × Nat))
    (hw : w.fds = (fd, i) :: fds) (hnot : fd ∉ fds.map Prod.fst) :
    (World.close w fd).2.fds = fds := by
  have ht := tick_fds w
  have hfd0 : ¬ ((fd : Int) < 0) := by omega
  have hr := World.filter_fds_restore fds fd i hnot
  unfold World.close
  cases hk : w.tick with
  | mk fault w0 =>
    rw [hk] at ht
    simp only at ht
    rw [hw] at ht
    simp only [ht, World.slotOf, hfd0, if_false, Int.toNat_ofNat, List.lookup, beq_self_eq_true]
    rw [hr]
    cases fault <;> rfl

/-- The descriptor of `callback_read` never outlives the call: on the model,
for every state, every fault schedule and every argument, the open descriptors
after `callback_read` are those before it. -/
theorem posix_read_keeps_descriptors (w : World) (basefd : Int) (path : List Char)
    (size : Nat) (offset : Int) :
    (callback_read posix basefd path size offset w).2.2.openFds = w.openFds := by
  have hopen := posix_openat_fds w basefd (ENSURE_RELPATH path) O_RDONLY
  unfold callback_read
  simp only [posix]
  cases ho : World.openat w basefd (ENSURE_RELPATH path) O_RDONLY with
  | mk r w1 =>
    rw [ho] at hopen
    cases r with
    | error e =>
      simp only at hopen
      simp [glnx_cleanup_close_fdp, World.openFds, hopen]
    | ok fd =>
      simp only at hopen
      obtain ⟨i, hfds, hnot⟩ := hopen
      have hne : ((fd : Int) ≠ -1) := by omega
      have hp := posix_pread_fds w1 fd size offset
      have hc := posix_close_head_fds (World.pread w1 fd size offset).2 fd i w.fds
        (hp.trans hfds) hnot
      simp only
      cases hpr : World.pread w1 fd size offset with
      | mk r2 w2 =>
        rw [hpr] at hc
        simp only at hc
        cases r2 with
        | error e => simp [glnx_cleanup_close_fdp, hne, World.openFds, hc]
        | ok bytes =>
          simp only
          split_ifs <;> simp [glnx_cleanup_close_fdp, hne, World.openFds, hc]

/-! ## Directory listing -/

theorem set_of_getElem? {α : Type} (l : List α) (i : Nat) (a : α) (h : l[i]? = some a) :
    l.set i a = l := by
  induction l generalizing i with
  | nil => rfl
  | cons x xs ih =>
    cases i with
    | zero =>
      simp at h
      simp [h]
    | succ j =>
      simp at h
      simp [ih j h]

theorem posix_readdir_loop {β : Type} (filler : β → List Char → Stat → Int → Int × β)
    (inodes : List Inode) (fds : List (Nat × Nat)) (errno dp j d : Nat) (n : Inode)
    (hslot : World.slotOf fds (dp : Int) = some j) (hino : inodes[d]? = some n) :
    ∀ (fuel p : Nat) (files : List OpenFile) (buf : β),
      files[j]? = some ⟨d, p⟩ → n.slots.length - p < fuel →
      ∃ q, readdir_loop posix filler dp fuel ⟨inodes, files, fds, [], errno⟩ buf
        = some (⟨inodes, files.set j ⟨d, q⟩, fds, [], errno⟩,
            feed filler ((n.slots.drop p).map reported) buf) := by
  intro fuel
  induction fuel with
  | zero => intro p files buf _ h; omega
  | succ fuel ih =>
    intro p files buf hfile hfuel
    cases hsl : n.slots[p]? with
    | none =>
      refine ⟨p, ?_⟩
      have hdrop : n.slots.drop p = [] :=
        List.drop_eq_nil_of_le (List.getElem?_eq_none_iff.1 hsl)
      simp [readdir_loop, posix, World.readdir, World.tick, hslot, hfile, hino, hsl, hdrop, feed,
        set_of_getElem? files j _ hfile]
    | some sl =>
      obtain ⟨hlt, hget⟩ := List.getElem?_eq_some.1 hsl
      have hdrop : n.slots.drop p = sl :: n.slots.drop (p + 1) := by
        rw [List.drop_eq_getElem_cons hlt, hget]
      have hj : j < files.length := (List.getElem?_eq_some.1 hfile).1
      cases hfill : filler buf sl.name
          ⟨0, sl.ino, sl.d_type <<< 12, 0, 0, 0, 0, 0, 0, 0, 0, 0, 0⟩ 0 with
      | mk r buf1 =>
        by_cases hr : r = 0
        · have hfile1 : (files.set j ⟨d, p + 1⟩)[j]? = some ⟨d, p + 1⟩ :=
            List.getElem?_set_self hj
          obtain ⟨q, hq⟩ := ih (p + 1) (files.set j ⟨d, p + 1⟩) buf1 hfile1 (by omega)
          refine ⟨q, ?_⟩
          simp only [readdir_loop, posix, World.readdir, World.tick, hslot, hfile, hino, hsl,
            Stat.zero, hfill, hr, ne_eq, not_true_eq_false, if_false, hdrop, List.map_cons,
            feed, reported]
          simpa [posix, List.set_set] using hq
        · refine ⟨p + 1, ?_⟩
          simp [readdir_loop, posix, World.readdir, World.tick, hslot, hfile, hino, hsl,
            Stat.zero, hfill, hr, hdrop, feed, reported]

theorem posix_readdir_root {β : Type} (filler : β → List Char → Stat → Int → Int × β)
    (inodes : List Inode) (files : List OpenFile) (fds : List (Nat × Nat)) (errno : Nat)
    (basefd : Int) (path : List Char) (i : Nat) (f : OpenFile) (n : Inode) (fuel : Nat)
    (buf : β) (hroot : ENSURE_RELPATH path = []) (hslot : World.slotOf fds basefd = some i)
    (hfile : files[i]? = some f) (hino : inodes[f.ino]? = some n) (hdir : n.ftype = .dir)
    (hfuel : n.slots.length < fuel) :
    ∃ q, callback_readdir posix basefd filler fuel path buf ⟨inodes, files, fds, [], errno⟩
      = some (0, feed filler (n.slots.map reported) buf,
          ⟨inodes, files.set i ⟨f.ino, q⟩, fds, [], errno⟩) := by
  obtain ⟨nfd, hfresh, hnot⟩ := World.freshFd_spec fds 3
  have hi : i < files.length := (List.getElem?_eq_some.1 hfile).1
  have hnfd0 : ¬ ((nfd : Int) < 0) := by omega
  have hslot1 : World.slotOf ((nfd, i) :: fds) (nfd : Int) = some i :=
    World.slotOf_cons_self nfd i fds
  have hfile1 : (files.set i ⟨f.ino, 0⟩)[i]? = some ⟨f.ino, 0⟩ := List.getElem?_set_self hi
  obtain ⟨q, hloop⟩ := posix_readdir_loop filler inodes ((nfd, i) :: fds) errno nfd i f.ino n
    hslot1 hino fuel 0 (files.set i ⟨f.ino, 0⟩) buf hfile1 (by omega)
  refine ⟨q, ?_⟩
  have hdup : World.fcntl_dupfd_cloexec ⟨inodes, files, fds, [], errno⟩ basefd 3
      = (.ok nfd, ⟨inodes, files, (nfd, i) :: fds, [], errno⟩) := by
    simp [World.fcntl_dupfd_cloexec, World.tick, hslot, World.install, hfresh]
  have hseek : World.lseek ⟨inodes, files, (nfd, i) :: fds, [], errno⟩ nfd 0 SEEK_SET
      = (.ok 0, ⟨inodes, files.set i ⟨f.ino, 0⟩, (nfd, i) :: fds, [], errno⟩) := by
    simp [World.lseek, World.tick, hslot1, hfile]
  have hopen : World.fdopendir ⟨inodes, files.set i ⟨f.ino, 0⟩, (nfd, i) :: fds, [], errno⟩ nfd
      = (.ok nfd, ⟨inodes, files.set i ⟨f.ino, 0⟩, (nfd, i) :: fds, [], errno⟩) := by
    simp [World.fdopendir, World.tick, World.fileOf, hslot1, hfile1, hino, hdir]
  have hclose := World.close_head inodes ((files.set i ⟨f.ino, 0⟩).set i ⟨f.ino, q⟩) nfd i fds
    errno hnot
  rw [List.set_set] at hclose hloop
  simp only [callback_readdir, hroot, List.isEmpty_nil, if_true, posix, hdup, hseek, hopen]
  simp only [posix] at hloop
  simp only [hloop, World.closedir, hclose, List.drop_zero]

theorem posix_readdir_sub {β : Type} (filler : β → List Char → Stat → Int → Int × β)
    (inodes : List Inode) (files : List OpenFile) (fds : List (Nat × Nat)) (errno : Nat)
    (basefd : Int) (path : List Char) (d : Nat) (n : Inode) (fuel : Nat) (buf : β)
    (hsub : ENSURE_RELPATH path ≠ [])
    (hres : World.lookupPath inodes files fds basefd (ENSURE_RELPATH path) = .ok d)
    (hino : inodes[d]? = some n) (hdir : n.ftype = .dir) (hfuel : n.slots.length < fuel) :
    ∃ q, callback_readdir posix basefd filler fuel path buf ⟨inodes, files, fds, [], errno⟩
      = some (0, feed filler (n.slots.map reported) buf,
          ⟨inodes, files ++ [⟨d, q⟩], fds, [], errno⟩) := by
  obtain ⟨nfd, hfresh, hnot⟩ := World.freshFd_spec fds 0
  have hslot1 : World.slotOf ((nfd, files.length) :: fds) (nfd : Int) = some files.length :=
    World.slotOf_cons_self nfd files.length fds
  have hfile1 : (files ++ [⟨d, 0⟩])[files.length]? = some (⟨d, 0⟩ : OpenFile) :=
    List.getElem?_concat_length files _
  obtain ⟨q, hloop⟩ := posix_readdir_loop filler inodes ((nfd, files.length) :: fds) errno nfd
    files.length d n hslot1 hino fuel 0 (files ++ [⟨d, 0⟩]) buf hfile1 (by omega)
  refine ⟨q, ?_⟩
  have hset : (files ++ [(⟨d, 0⟩ : OpenFile)]).set files.length ⟨d, q⟩ = files ++ [⟨d, q⟩] := by
    rw [List.set_append_right _ _ (le_refl _)]
    simp
  have hloc : ∀ follow,
      World.locate ⟨inodes, files, fds, [], errno⟩ basefd (ENSURE_RELPATH path) follow
        = .ok d := fun follow =>
    World.locate_of_resolve ⟨inodes, files, fds, [], errno⟩ basefd _ d follow hres
      (fun _ => World.isLink_of_ftype inodes d n hino (by rw [hdir]; decide))
  have hopenat : World.openat ⟨inodes, files, fds, [], errno⟩ basefd (ENSURE_RELPATH path)
      O_DIRFLAGS
      = (.ok nfd, ⟨inodes, files ++ [⟨d, 0⟩], (nfd, files.length) :: fds, [], errno⟩) := by
    simp [World.openat, World.tick, hloc, hino, hdir, World.install, hfresh]
  have hopen : World.fdopendir ⟨inodes, files ++ [⟨d, 0⟩], (nfd, files.length) :: fds, [], errno⟩
      nfd = (.ok nfd, ⟨inodes, files ++ [⟨d, 0⟩], (nfd, files.length) :: fds, [], errno⟩) := by
    simp [World.fdopendir, World.tick, World.fileOf, hslot1, hino, hdir]
  have hclose := World.close_head inodes (files ++ [⟨d, q⟩]) nfd files.length fds errno hnot
  rw [hset] at hloop
  have hne : (ENSURE_RELPATH path).isEmpty = false := by
    cases h : ENSURE_RELPATH path with
    | nil => exact absurd h hsub
    | cons _ _ => rfl
  simp only [callback_readdir, hne, posix, hopenat, Bool.false_eq_true, if_false]
  simp only [posix] at hloop
  simp only [hopen, hloop, World.closedir, hclose, List.drop_zero]

theorem fileOf_append (files l : List OpenFile) (fds : List (Nat × Nat)) (fd : Int)
    (f : OpenFile) (h : World.fileOf files fds fd = some f) :
    World.fileOf (files ++ l) fds fd = some f := by
  unfold World.fileOf at h ⊢
  cases hs : World.slotOf fds fd with
  | none => simp [hs] at h
  | some i =>
    simp only [hs] at h ⊢
    have hi : i < files.length := (List.getElem?_eq_some.1 h).1
    rw [List.getElem?_append_left hi]
    exact h

theorem lookupPath_append (inodes : List Inode) (files l : List OpenFile)
    (fds : List (Nat × Nat)) (dirfd : Int) (path : List Char) (d : Nat)
    (h : World.lookupPath inodes files fds dirfd path = .ok d) :
    World.lookupPath inodes (files ++ l) fds dirfd path = .ok d := by
  unfold World.lookupPath World.dirOf at h ⊢
  cases hf : World.fileOf files fds dirfd with
  | none =>
    exfalso
    simp only [hf] at h
    split_ifs at h
  | some f => simpa [hf, fileOf_append files l fds dirfd f hf] using h

theorem shifted_type_eq (t : FType) : Nat.land (t.DT <<< 12) S_IFMT = t.S_IF := by
  cases t <;> decide

/-- C7, as amended. On the model with no failure scheduled, for the mount root
(first part) and for a path that resolves to a directory (second part), with
`n.slots` the entries the directory stream yields and `fuel` above their number:
`callback_readdir` returns 0 and the accumulation buffer is that of `feed`,
i.e. the entries were passed to the filler in stream order from the first, each
once, as `reported` gives them, up to and including the first one for which the
filler returned non-zero; the inode table and the open descriptors are as
before; and a second listing from the resulting state reports the same.  An
entry is reported with its name, `st_ino = d_ino`, `st_mode = d_type << 12` and
every other stat field zero.  For each of the seven file types the shifted
`DT_*` value masked with `S_IFMT` is the `S_IF*` constant of that type; for
`DT_UNKNOWN` the masked value is 0. -/
theorem callback_readdir_reports_entries :
    (∀ (β : Type) (filler : β → List Char → Stat → Int → Int × β) (w : World) (basefd : Int)
        (path : List Char) (i : Nat) (f : OpenFile) (n : Inode) (fuel : Nat) (buf : β),
      w.faults = [] → ENSURE_RELPATH path = [] → World.slotOf w.fds basefd = some i →
      w.files[i]? = some f → w.inodes[f.ino]? = some n → n.ftype = .dir →
      n.slots.length < fuel →
      ∃ w' : World,
        callback_readdir posix basefd filler fuel path buf w
          = some (0, feed filler (n.slots.map reported) buf, w') ∧
        w'.inodes = w.inodes ∧ w'.openFds = w.openFds ∧
        ∃ w'' : World, callback_readdir posix basefd filler fuel path buf w'
          = some (0, feed filler (n.slots.map reported) buf, w'')) ∧
    (∀ (β : Type) (filler : β → List Char → Stat → Int → Int × β) (w : World) (basefd : Int)
        (path : List Char) (d : Nat) (n : Inode) (fuel : Nat) (buf : β),
      w.faults = [] → ENSURE_RELPATH path ≠ [] →
      w.resolve basefd (ENSURE_RELPATH path) = .ok d →
      w.inodes[d]? = some n → n.ftype = .dir → n.slots.length < fuel →
      ∃ w' : World,
        callback_readdir posix basefd filler fuel path buf w
          = some (0, feed filler (n.slots.map reported) buf, w') ∧
        w'.inodes = w.inodes ∧ w'.openFds = w.openFds ∧
        ∃ w'' : World, callback_readdir posix basefd filler fuel path buf w'
          = some (0, feed filler (n.slots.map reported) buf, w'')) ∧
    (∀ sl : DirSlot,
      reported sl = (sl.name, ⟨0, sl.ino, sl.d_type * 4096, 0, 0, 0, 0, 0, 0, 0, 0, 0, 0⟩)) ∧
    (∀ t : FType, Nat.land (t.DT <<< 12) S_IFMT = t.S_IF) ∧
    Nat.land (DT_UNKNOWN <<< 12) S_IFMT = 0 := by
  refine ⟨?_, ?_, ?_, shifted_type_eq, by decide⟩
  · intro β filler w basefd path i f n fuel buf hf hroot hslot hfile hino hdir hfuel
    obtain ⟨inodes, files, fds, faults, errno⟩ := w
    simp only at hf hslot hfile hino
    subst hf
    obtain ⟨q, h1⟩ := posix_readdir_root filler inodes files fds errno basefd path i f n fuel buf
      hroot hslot hfile hino hdir hfuel
    have hi : i < files.length := (List.getElem?_eq_some.1 hfile).1
    obtain ⟨q2, h2⟩ := posix_readdir_root filler inodes (files.set i ⟨f.ino, q⟩) fds errno basefd
      path i ⟨f.ino, q⟩ n fuel buf hroot hslot (List.getElem?_set_self hi) hino hdir hfuel
    exact ⟨_, h1, rfl, rfl, _, h2⟩
  · intro β filler w basefd path d n fuel buf hf hsub hres hino hdir hfuel
    obtain ⟨inodes, files, fds, faults, errno⟩ := w
    simp only [World.resolve] at hf hres hino
    subst hf
    obtain ⟨q, h1⟩ := posix_readdir_sub filler inodes files fds errno basefd path d n fuel buf
      hsub hres hino hdir hfuel
    obtain ⟨q2, h2⟩ := posix_readdir_sub filler inodes (files ++ [⟨d, q⟩]) fds errno basefd path
      d n fuel buf hsub (lookupPath_append inodes files _ fds basefd _ d hres) hino hdir hfuel
    exact ⟨_, h1, rfl, rfl, _, h2⟩
  · intro sl
    simp [reported, Nat.shiftLeft_eq]

/-- C7 on the example filesystem: listing `/d` with a filler that never stops
reports `.`, `..` and `x` in this order, with the inode numbers and the type
bits of a directory, a directory and a regular file; listing `/` reports the six
entries of the base directory; in both cases a second listing from the
resulting state reports the same; a filler that stops at once receives `.`
alone. -/
theorem callback_readdir_reports_entries_witness :
    (exampleWorld.faults = [] ∧ ENSURE_RELPATH "/d".toList ≠ [] ∧
      exampleWorld.resolve exampleBasefd (ENSURE_RELPATH "/d".toList) = .ok 2 ∧
      exampleWorld.inodes[2]? = some exampleDir ∧ exampleDir.ftype = .dir ∧
      exampleDir.slots.length < 4 ∧
      feed recordAll (exampleDir.slots.map reported) []
        = [(".".toList, ⟨0, 2, S_IFDIR, 0, 0, 0, 0, 0, 0, 0, 0, 0, 0⟩),
           ("..".toList, ⟨0, 0, S_IFDIR, 0, 0, 0, 0, 0, 0, 0, 0, 0, 0⟩),
           ("x".toList, ⟨0, 5, S_IFREG, 0, 0, 0, 0, 0, 0, 0, 0, 0, 0⟩)] ∧
      ∃ w' : World,
        callback_readdir posix exampleBasefd recordAll 4 "/d".toList [] exampleWorld
          = some (0, feed recordAll (exampleDir.slots.map reported) [], w') ∧
        w'.inodes = exampleWorld.inodes ∧ w'.openFds = exampleWorld.openFds ∧
        ∃ w'' : World, callback_readdir posix exampleBasefd recordAll 4 "/d".toList [] w'
          = some (0, feed recordAll (exampleDir.slots.map reported) [], w'')) ∧
    (ENSURE_RELPATH "/".toList = [] ∧ World.slotOf exampleWorld.fds exampleBasefd = some 0 ∧
      exampleWorld.files[0]? = some ⟨0, 0⟩ ∧ exampleWorld.inodes[0]? = some exampleRoot ∧
      exampleRoot.ftype = .dir ∧ exampleRoot.slots.length < 7 ∧
      (feed recordAll (exampleRoot.slots.map reported) []).map Prod.fst
        = [".".toList, "..".toList, "a".toList, "d".toList, "l".toList, "u".toList] ∧
      ∃ w' : World,
        callback_readdir posix exampleBasefd recordAll 7 "/".toList [] exampleWorld
          = some (0, feed recordAll (exampleRoot.slots.map reported) [], w') ∧
        w'.inodes = exampleWorld.inodes ∧ w'.openFds = exampleWorld.openFds ∧
        ∃ w'' : World, callback_readdir posix exampleBasefd recordAll 7 "/".toList [] w'
          = some (0, feed recordAll (exampleRoot.slots.map reported) [], w'')) ∧
    (callback_readdir posix exampleBasefd recordOne 4 "/d".toList [] exampleWorld).map
        (fun r => (r.1, r.2.1))
      = some (0, [(".".toList, ⟨0, 2, S_IFDIR, 0, 0, 0, 0, 0, 0, 0, 0, 0, 0⟩)]) :=
  ⟨⟨by decide, by decide, by decide, by decide, by decide, by decide, by decide,
    callback_readdir_reports_entries.2.1 _ recordAll exampleWorld exampleBasefd "/d".toList 2
      exampleDir 4 [] (by decide) (by decide) (by decide) (by decide) (by decide) (by decide)⟩,
   ⟨by decide, by decide, by decide, by decide, by decide, by decide, by decide,
    callback_readdir_reports_entries.1 _ recordAll exampleWorld exampleBasefd "/".toList 0
      ⟨0, 0⟩ exampleRoot 7 [] (by decide) (by decide) (by decide) (by decide) (by decide)
      (by decide) (by decide)⟩,
   by decide⟩

/-- C7, counterexample. Listing the root of the example returns 0 and reports
six entries; the entry `u`, stored with `DT_UNKNOWN`, is reported with
`st_mode & S_IFMT = 0`, while inode 4, which it names, is a regular file, whose
type constant is `S_IFREG`. -/
theorem callback_readdir_unknown_type_reports_zero :
    exampleWorld.inodes[4]? = some (mkReg 420 "u".toList) ∧
    (mkReg 420 "u".toList).ftype.S_IF = S_IFREG ∧
    (callback_readdir posix exampleBasefd recordAll 10 "/".toList [] exampleWorld).map
        (fun r => (r.1, r.2.1.map (fun e => (e.1, e.2.st_ino, Nat.land e.2.st_mode S_IFMT))))
      = some (0, [(".".toList, 0, S_IFDIR), ("..".toList, 0, S_IFDIR), ("a".toList, 1, S_IFREG),
          ("d".toList, 2, S_IFDIR), ("l".toList, 3, S_IFLNK), ("u".toList, 4, 0)]) ∧
    Nat.land (DT_UNKNOWN <<< 12) S_IFMT ≠ S_IFREG := by
  decide

/-! ## Symbolic links -/

theorem size_sub_one_of_pos (size : Nat) (h1 : 1 ≤ size) (h2 : size < SIZE_RANGE) :
    size_sub_one size = size - 1 := by
  unfold size_sub_one
  unfold SIZE_RANGE at h2 ⊢
  omega

theorem readlink_bound_lt (size : Nat) (h2 : size < SIZE_RANGE)
    (hb : 0 < toInt32 (size_sub_one size)) :
    (toInt32 (size_sub_one size)).toNat < size ∧
      (toInt32 (size_sub_one size)).toNat ≤ INT_MAX := by
  unfold toInt32 size_sub_one at hb ⊢
  unfold SIZE_RANGE at h2 hb ⊢
  unfold INT_MAX
  omega

theorem readlink_bound_small (size : Nat) (h1 : 2 ≤ size) (h2 : size ≤ 2147483648) :
    0 < toInt32 (size_sub_one size) ∧ (toInt32 (size_sub_one size)).toNat = size - 1 := by
  unfold toInt32 size_sub_one
  unfold SIZE_RANGE
  omega

theorem mem_stores_lt (bytes : List Char) (st : Store) (h : st ∈ stores bytes) :
    0 ≤ st.1 ∧ st.1 < (bytes.length : Int) := by
  unfold stores at h
  obtain ⟨p, hp, rfl⟩ := List.mem_map.1 h
  obtain ⟨i, x⟩ := p
  have hi : i < bytes.length := by
    have := List.fst_lt_of_mem_enum hp
    simpa using this
  constructor
  · exact Int.natCast_nonneg i
  · show (i : Int) < (bytes.length : Int)
    exact_mod_cast hi

theorem posix_readlink_link (w : World) (basefd : Int) (path : List Char) (i : Nat)
    (n : Inode) (size : Nat) (hf : w.faults = []) (h2 : size < SIZE_RANGE)
    (hres : w.resolve basefd (ENSURE_RELPATH path) = .ok i) (hino : w.inodes[i]? = some n)
    (hlnk : n.ftype = .lnk) (hb : 0 < toInt32 (size_sub_one size)) :
    callback_readlink posix basefd path size w
      = (0, stores (n.data.take (toInt32 (size_sub_one size)).toNat)
            ++ [(((min (toInt32 (size_sub_one size)).toNat n.data.length : Nat) : Int),
                  Char.ofNat 0)], w) := by
  obtain ⟨_, hmax⟩ := readlink_bound_lt size h2 hb
  have hlen1 : (n.data.take (toInt32 (size_sub_one size)).toNat).length
      = min (toInt32 (size_sub_one size)).toNat n.data.length := by
    simp [List.length_take]
  have hle : min (toInt32 (size_sub_one size)).toNat n.data.length ≤ INT_MAX :=
    le_trans (min_le_left _ _) hmax
  have hne : ((min (toInt32 (size_sub_one size)).toNat n.data.length : Nat) : Int) ≠ -1 := by
    omega
  have hnb : ¬ toInt32 (size_sub_one size) ≤ 0 := not_le.2 hb
  have hloc : w.locate basefd (ENSURE_RELPATH path) false = .ok i :=
    World.locate_of_resolve w basefd _ i false hres (fun h => Bool.noConfusion h)
  simp only [callback_readlink, posix, World.readlinkat, World.tick_of_no_fault w hf, hnb,
    if_false, hloc, hino, hlnk, if_true, hlen1, toInt32_of_le _ hle, hne]

/-- C10, as amended. On the model with no failure scheduled, for a symbolic
link with target `n.data`: for `2 ≤ size ≤ 2^31` the handler returns 0 having
stored the first `min (size - 1) |n.data|` bytes of the target and the
terminator right after them; for every `size` whose bound `size - 1`, taken as
an `int`, is positive, it returns 0 having stored the first bytes of the target
up to that bound and the terminator after them, every store at an index below
`size`; for every `size` whose bound is not positive as an `int` (0 and 1 among
them) it returns `-EINVAL` and stores nothing.  For every kernel, a failing
`readlinkat` makes the handler return the negated errno with no store. -/
theorem callback_readlink_terminates_in_buffer :
    (∀ (w : World) (basefd : Int) (path : List Char) (i : Nat) (n : Inode) (size : Nat),
      w.faults = [] → w.resolve basefd (ENSURE_RELPATH path) = .ok i →
      w.inodes[i]? = some n → n.ftype = .lnk → 2 ≤ size → size ≤ 2147483648 →
      callback_readlink posix basefd path size w
        = (0, stores (n.data.take (size - 1))
              ++ [(((min (size - 1) n.data.length : Nat) : Int), Char.ofNat 0)], w)) ∧
    (∀ (w : World) (basefd : Int) (path : List Char) (i : Nat) (n : Inode) (size : Nat),
      w.faults = [] → size < SIZE_RANGE → w.resolve basefd (ENSURE_RELPATH path) = .ok i →
      w.inodes[i]? = some n → n.ftype = .lnk → 0 < toInt32 (size_sub_one size) →
      callback_readlink posix basefd path size w
        = (0, stores (n.data.take (toInt32 (size_sub_one size)).toNat)
              ++ [(((min (toInt32 (size_sub_one size)).toNat n.data.length : Nat) : Int),
                    Char.ofNat 0)], w) ∧
      ∀ st ∈ (callback_readlink posix basefd path size w).2.1,
        0 ≤ st.1 ∧ st.1 < (size : Int)) ∧
    (∀ (w : World) (basefd : Int) (path : List Char) (size : Nat),
      w.faults = [] → toInt32 (size_sub_one size) ≤ 0 →
      callback_readlink posix basefd path size w
        = (-(EINVAL : Int), [], { w with errno := EINVAL })) ∧
    (∀ (σ : Type) (k : Kernel σ) (basefd : Int) (path : List Char) (size : Nat) (s s1 : σ)
        (e : Nat),
      k.readlinkat s basefd (ENSURE_RELPATH path) (size_sub_one size) = (.error e, s1) →
      callback_readlink k basefd path size s = (-(e : Int), [], s1)) := by
  refine ⟨?_, ?_, ?_, ?_⟩
  · intro w basefd path i n size hf hres hino hlnk h1 h2
    obtain ⟨hb, heq⟩ := readlink_bound_small size h1 h2
    have hs : size < SIZE_RANGE := lt_of_le_of_lt h2 (by decide)
    rw [posix_readlink_link w basefd path i n size hf hs hres hino hlnk hb, heq]
  · intro w basefd path i n size hf hs hres hino hlnk hb
    have heq := posix_readlink_link w basefd path i n size hf hs hres hino hlnk hb
    refine ⟨heq, ?_⟩
    obtain ⟨hlt, _⟩ := readlink_bound_lt size hs hb
    rw [heq]
    intro st hst
    have hmin : min (toInt32 (size_sub_one size)).toNat n.data.length
        ≤ (toInt32 (size_sub_one size)).toNat := min_le_left _ _
    rcases List.mem_append.1 hst with h | h
    · have h3 := mem_stores_lt _ st h
      have hlen1 : (n.data.take (toInt32 (size_sub_one size)).toNat).length
          = min (toInt32 (size_sub_one size)).toNat n.data.length := by
        simp [List.length_take]
      rw [hlen1] at h3
      constructor
      · exact h3.1
      · omega
    · simp only [List.mem_singleton] at h
      subst h
      constructor
      · exact Int.natCast_nonneg _
      · show ((min (toInt32 (size_sub_one size)).toNat n.data.length : Nat) : Int) < size
        omega
  · intro w basefd path size hf hb
    simp only [callback_readlink, posix, World.readlinkat, World.tick_of_no_fault w hf, hb,
      if_true, World.fail]
  · intro σ k basefd path size s s1 e h
    simp only [callback_readlink, h]

/-- C10 on the example filesystems: with `size = 3` the link `/h`, with target
`hello`, gives `he` and the terminator at index 2; with `size = 4097` it gives
the whole target and the terminator at index 5, and so does the bound taken as
an `int`; with `size = 0` and `size = 1` the handler returns -22 and stores
nothing; on the regular file `/a` the `EINVAL` of `readlinkat` is returned. -/
theorem callback_readlink_terminates_in_buffer_witness :
    (linkWorld.faults = [] ∧
      linkWorld.resolve exampleBasefd (ENSURE_RELPATH "/h".toList) = .ok 1 ∧
      linkWorld.inodes[1]? = some (mkLnk "hello".toList) ∧
      callback_readlink posix exampleBasefd "/h".toList 3 linkWorld
        = (0, [(0, 'h'), (1, 'e'), (2, Char.ofNat 0)], linkWorld)) ∧
    ((4097 : Nat) < SIZE_RANGE ∧ 0 < toInt32 (size_sub_one 4097) ∧
      callback_readlink posix exampleBasefd "/h".toList 4097 linkWorld
        = (0, [(0, 'h'), (1, 'e'), (2, 'l'), (3, 'l'), (4, 'o'), (5, Char.ofNat 0)],
            linkWorld) ∧
      ∀ st ∈ (callback_readlink posix exampleBasefd "/h".toList 4097 linkWorld).2.1,
        0 ≤ st.1 ∧ st.1 < ((4097 : Nat) : Int)) ∧
    (toInt32 (size_sub_one 0) ≤ 0 ∧
      callback_readlink posix exampleBasefd "/h".toList 0 linkWorld
        = (-22, [], { linkWorld with errno := EINVAL })) ∧
    (toInt32 (size_sub_one 1) ≤ 0 ∧
      callback_readlink posix exampleBasefd "/h".toList 1 linkWorld
        = (-22, [], { linkWorld with errno := EINVAL })) ∧
    (posix.readlinkat exampleWorld exampleBasefd (ENSURE_RELPATH "/a".toList)
        (size_sub_one 4097) = (.error EINVAL, { exampleWorld with errno := EINVAL }) ∧
      callback_readlink posix exampleBasefd "/a".toList 4097 exampleWorld
        = (-22, [], { exampleWorld with errno := EINVAL })) :=
  ⟨⟨by decide, by decide, by decide,
    (callback_readlink_terminates_in_buffer.1 linkWorld exampleBasefd "/h".toList 1
      (mkLnk "hello".toList) 3 (by decide) (by decide) (by decide) (by decide) (by decide)
      (by decide)).trans (by decide)⟩,
   ⟨by decide, by decide,
    (callback_readlink_terminates_in_buffer.2.1 linkWorld exampleBasefd "/h".toList 1
      (mkLnk "hello".toList) 4097 (by decide) (by decide) (by decide) (by decide) (by decide)
      (by decide)).1.trans (by decide),
    (callback_readlink_terminates_in_buffer.2.1 linkWorld exampleBasefd "/h".toList 1
      (mkLnk "hello".toList) 4097 (by decide) (by decide) (by decide) (by decide) (by decide)
      (by decide)).2⟩,
   ⟨by decide,
    callback_readlink_terminates_in_buffer.2.2.1 linkWorld exampleBasefd "/h".toList 0
      (by decide) (by decide)⟩,
   ⟨by decide,
    callback_readlink_terminates_in_buffer.2.2.1 linkWorld exampleBasefd "/h".toList 1
      (by decide) (by decide)⟩,
   ⟨by decide,
    callback_readlink_terminates_in_buffer.2.2.2 World posix exampleBasefd "/a".toList 4097
      exampleWorld { exampleWorld with errno := EINVAL } EINVAL (by decide)⟩⟩

/-- C10, counterexample. With `size = 4294967299` (2^32 + 3) the bound
`size - 1` is 2 as an `int`: on the link `/h`, with target `hello`, the handler
returns 0 having stored `he` and the terminator at index 2, not the first
`min (|t|, size - 1) = 5` bytes of the target. -/
theorem callback_readlink_bound_truncated_to_int :
    linkWorld.resolve exampleBasefd (ENSURE_RELPATH "/h".toList) = .ok 1 ∧
    linkWorld.inodes[1]? = some (mkLnk "hello".toList) ∧
    size_sub_one 4294967299 = 4294967298 ∧
    min (mkLnk "hello".toList).data.length (4294967299 - 1) = 5 ∧
    callback_readlink posix exampleBasefd "/h".toList 4294967299 linkWorld
      = (0, [(0, 'h'), (1, 'e'), (2, Char.ofNat 0)], linkWorld) ∧
    (callback_readlink posix exampleBasefd "/h".toList 4294967299 linkWorld).2.1
      ≠ stores "hello".toList ++ [(5, Char.ofNat 0)] := by
  decide

/-! ## The handlers on every state of the model -/

/-- On every state of the model with no failure scheduled, `callback_chmod` and
`callback_chown` on a path made of slashes only return `-ENOENT` and change
nothing but `errno`: `can_write` hands the empty path to `fstatat`. -/
theorem posix_chmod_root_enoent (w : World) (basefd : Int) (path : List Char) (mode uid gid : Nat)
    (hf : w.faults = []) (hroot : ENSURE_RELPATH path = []) :
    callback_chmod posix basefd path mode w = (-(ENOENT : Int), { w with errno := ENOENT }) ∧
    callback_chown posix basefd path uid gid w
      = (-(ENOENT : Int), { w with errno := ENOENT }) := by
  have hnil : ENSURE_RELPATH ([] : List Char) = [] := rfl
  have hstat : World.fstatat w basefd [] 0 = (.error ENOENT, { w with errno := ENOENT }) := by
    simp [World.fstatat, World.tick_of_no_fault w hf, World.locate, World.fail]
  have hcw : can_write posix basefd [] w = (-(ENOENT : Int), { w with errno := ENOENT }) := by
    simp only [can_write, hnil, posix, hstat]
  have hne : (-(ENOENT : Int)) ≠ 0 := by decide
  constructor
  · simp only [callback_chmod, hroot, hcw, hne, ne_eq, not_false_eq_true, if_true]
  · simp only [callback_chown, hroot, hcw, hne, ne_eq, not_false_eq_true, if_true]

/-- For every kernel: when `symlinkat` succeeds, `callback_rename` returns 0 in
the state `symlinkat` left, without a call of `renameat`; when it fails, the
result is that of `renameat`. -/
theorem callback_rename_symlink_first {σ : Type} (k : Kernel σ) (basefd : Int)
    (from_ to_ : List Char) (s s1 : σ) :
    (k.symlinkat s (ENSURE_RELPATH from_) basefd (ENSURE_RELPATH to_) = (.ok (), s1) →
      callback_rename k basefd from_ to_ s = (0, s1)) ∧
    (∀ e, k.symlinkat s (ENSURE_RELPATH from_) basefd (ENSURE_RELPATH to_) = (.error e, s1) →
      callback_rename k basefd from_ to_ s =
        match k.renameat s1 basefd (ENSURE_RELPATH from_) basefd (ENSURE_RELPATH to_) with
        | (.error e1, s2) => (-(e1 : Int), s2)
        | (.ok _, s2) => (0, s2)) := by
  constructor
  · intro h
    simp [callback_rename, h]
  · intro e h
    simp only [callback_rename, h]

/-- On the model, `pread` rejects an end offset of 2^63 or more: reading 5
bytes of `/a` at offset 2^63 - 1 returns `-EINVAL`, and at offset 2^63 - 6,
beyond the end of the file, it returns 0. -/
theorem posix_read_end_offset_rejected :
    (callback_read posix exampleBasefd "/a".toList 5 9223372036854775807 exampleWorld).1 = -22 ∧
    (callback_read posix exampleBasefd "/a".toList 5 9223372036854775802 exampleWorld).1 = 0 := by
  decide

/-- On the model the calls follow symbolic links as the kernel does: through
the link `/l` to `a`, `callback_getattr` reports the regular file,
`callback_read` returns its bytes, the probe `X_OK` gets the `-EACCES` of the
file, `callback_chmod` is denied as for the file, and `callback_readlink` reads
the link itself. -/
theorem posix_follows_links :
    (callback_getattr posix exampleBasefd "/l".toList Stat.zero exampleWorld).2.1.st_mode
      = S_IFREG + 420 ∧
    (callback_read posix exampleBasefd "/l".toList 5 0 exampleWorld).2.1 = "hello".toList ∧
    (callback_access posix exampleBasefd "/l".toList X_OK exampleWorld).1 = -13 ∧
    (callback_chmod posix exampleBasefd "/l".toList 448 exampleWorld).1 = -30 ∧
    (callback_readlink posix exampleBasefd "/l".toList 4097 exampleWorld).2.1
      = [(0, 'a'), (1, Char.ofNat 0)] := by
  decide

/-! ## Evaluations on the example filesystem -/

/-- C3. On the mount root the directory gate fails: `callback_getattr` on `/`
succeeds and reports a directory, but `callback_chmod` and `callback_chown` on
`/` return `-ENOENT` (-2) and leave every inode as it was, because `can_write`
passes the empty relative path to `fstatat`.  On the directory `/d` the same
calls succeed and the new mode is visible to `callback_getattr`; on the regular
file `/a` the result is `-EROFS`. -/
theorem callback_chmod_root_returns_enoent :
    (callback_getattr posix exampleBasefd "/".toList Stat.zero exampleWorld).1 = 0 ∧
    S_ISDIR (callback_getattr posix exampleBasefd "/".toList Stat.zero exampleWorld).2.1.st_mode
      = true ∧
    posix.fstatat exampleWorld exampleBasefd (ENSURE_RELPATH "/".toList) 0
      = (.error ENOENT, { exampleWorld with errno := ENOENT }) ∧
    callback_chmod posix exampleBasefd "/".toList 448 exampleWorld
      = (-2, { exampleWorld with errno := ENOENT }) ∧
    callback_chown posix exampleBasefd "/".toList 0 0 exampleWorld
      = (-2, { exampleWorld with errno := ENOENT }) ∧
    (callback_chmod posix exampleBasefd "/d".toList 448 exampleWorld).1 = 0 ∧
    (callback_getattr posix exampleBasefd "/d".toList Stat.zero
        (callback_chmod posix exampleBasefd "/d".toList 448 exampleWorld).2).2.1.st_mode
      = S_IFDIR + 448 ∧
    (callback_chown posix exampleBasefd "/d".toList 0 0 exampleWorld).1 = 0 ∧
    callback_chmod posix exampleBasefd "/a".toList 448 exampleWorld = (-30, exampleWorld) := by
  decide

/-- C5. Renaming `/a` to the free name `/b` in the example: the handler returns
0 after `symlinkat` alone.  Afterwards `a` still names inode 1, `b` names a new
symbolic link with target `a`, and the state is the one `symlinkat` left, so no
rename took place. -/
theorem callback_rename_creates_symlink :
    exampleWorld.resolve exampleBasefd "b".toList = .error ENOENT ∧
    (callback_rename posix exampleBasefd "/a".toList "/b".toList exampleWorld).1 = 0 ∧
    (callback_rename posix exampleBasefd "/a".toList "/b".toList exampleWorld).2
      = (posix.symlinkat exampleWorld "a".toList exampleBasefd "b".toList).2 ∧
    (callback_rename posix exampleBasefd "/a".toList "/b".toList exampleWorld).2.resolve
      exampleBasefd "a".toList = .ok 1 ∧
    (callback_rename posix exampleBasefd "/a".toList "/b".toList exampleWorld).2.resolve
      exampleBasefd "b".toList = .ok 7 ∧
    (callback_rename posix exampleBasefd "/a".toList "/b".toList exampleWorld).2.inodes[7]?
      = some (mkLnk "a".toList) := by
  decide

/-- C9. A failing `fdopendir` leaks the descriptor.  Listing `/d` with `openat`
succeeding and `fdopendir` failing with `ENOMEM` returns -12 with descriptor 4
still open; listing `/` with the duplication and the seek succeeding and
`fdopendir` failing returns -12 with the duplicate, descriptor 4, still open.
The base descriptor stays open in both.  `callback_read` with a failing `pread`
(`EIO`) returns -5 with the descriptors as they were. -/
theorem callback_readdir_leaks_on_fdopendir_failure :
    exampleWorld.openFds = [0, 1, 2, 3] ∧
    (callback_readdir posix exampleBasefd recordAll 10 "/d".toList []
        { exampleWorld with faults := [none, some ENOMEM] }).map
      (fun r => (r.1, r.2.2.openFds)) = some (-12, [4, 0, 1, 2, 3]) ∧
    (callback_readdir posix exampleBasefd recordAll 10 "/".toList []
        { exampleWorld with faults := [none, none, some ENOMEM] }).map
      (fun r => (r.1, r.2.2.openFds)) = some (-12, [4, 0, 1, 2, 3]) ∧
    (callback_read posix exampleBasefd "/a".toList 5 0
        { exampleWorld with faults := [none, some EIO] }).1 = -5 ∧
    (callback_read posix exampleBasefd "/a".toList 5 0
        { exampleWorld with faults := [none, some EIO] }).2.2.openFds = [0, 1, 2, 3] := by
  decide

end Rofiles
